import Mathlib

/-!
# Game Boy core: memory bus, stack, DMA, flags and opcode dispatch

A shallow embedding of `gb/Memory.go` and `gb/cpu.go`.

* `uint16` values are naturals with an explicit `% 65536` wherever the Go
  arithmetic can wrap, `byte` values are naturals with `% 256` at every
  conversion `byte(..)`.
* The receiver `core *Core` becomes an explicit state argument; a method that
  assigns returns the new state.
* `log.Println` / `log.Printf` only write to the log and are left out;
  `log.Fatalf` ends the run and is an `Except.error` carrying its arguments.
* The cartridge, the opcode table and the timer hooks are declared in other
  files of the package; they enter as data (`Cartridge`, `Env`).
-/

namespace gb

/-! ## Data model -/

/-- The cartridge as the core sees it: `Props.ROMLength`, `MBC.ReadRom` and
`MBC.ReadRomBank`. The controller is declared outside the two embedded files. -/
structure Cartridge where
  ROMLength : Int
  ReadRom : Nat → Nat
  ReadRomBank : Nat → Nat

/-- Registers of `cpu.go`: six bytes and three 16-bit words. -/
structure Registers where
  A : Nat
  B : Nat
  C : Nat
  D : Nat
  E : Nat
  F : Nat
  HL : Nat
  PC : Nat
  SP : Nat

/-- Flags of `cpu.go`. -/
structure Flags where
  Zero : Bool
  Sub : Bool
  HalfCarry : Bool
  Carry : Bool
  InterruptMaster : Bool
  PendingInterruptDisabled : Bool
  PendingInterruptEnabled : Bool

/-- The `CPU` struct. -/
structure CPU where
  Registers : Registers
  Flags : Flags

/-- The `Memory` struct: `MainMemory [0x10000]byte`, indexed by address. -/
structure Memory where
  MainMemory : Nat → Nat

/-- The `Core` aggregate. `Rest` stands for the fields of `Core` that the two
embedded files never name (timer counters and the like). -/
structure Core where
  Cartridge : Cartridge
  Memory : Memory
  CPU : CPU
  Debug : Bool
  Rest : Nat

/-- One entry of `OPCodeFunctionMap`: handler, base clock and mnemonic. A handler
is a state transformer that returns its extra cycles; the handlers themselves
are defined outside the two embedded files. -/
structure OPCode where
  Func : Core → Core × Int
  Clock : Int
  OP : String

/-- What the embedded code calls but does not define: the opcode table and the
timer hooks `GetClockFreq` / `SetClockFreq`. -/
structure Env where
  OPCodeFunctionMap : Nat → OPCode
  GetClockFreq : Core → Int
  SetClockFreq : Core → Core

/-! ## Memory bus (`Memory.go`) -/

/-- The assignment `core.Memory.MainMemory[address] = data`. -/
def store (core : Core) (address data : Nat) : Core :=
  { core with Memory := { MainMemory := fun a => if a = address then data else core.Memory.MainMemory a } }

/-- `ReadMemory`: both banked windows go to `ReadRomBank`, the rest to the array. -/
def ReadMemory (core : Core) (address : Nat) : Nat :=
  if 0x4000 ≤ address ∧ address ≤ 0x7FFF then
    core.Cartridge.ReadRomBank address
  else if 0xA000 ≤ address ∧ address ≤ 0xBFFF then
    core.Cartridge.ReadRomBank address
  else
    core.Memory.MainMemory address

mutual

/-- `WriteMemory`: the ordered side-effect table of the bus. -/
def WriteMemory (env : Env) (core : Core) (address data : Nat) : Core :=
  if address < 0x8000 then
    core
  else if h : 0xE000 ≤ address ∧ address < 0xFE00 then
    WriteMemory env (store core address data) (address - 0x2000) data
  else if 0xFEA0 ≤ address ∧ address < 0xFEFF then
    core
  else if 0xFF04 = address then
    store core 0xFF04 0
  else if address = 0xFF44 then
    store core 0xFF44 0
  else if address = 0xFF46 then
    DoDMA env core data
  else if address = 0xFF07 then
    let currentFreq := env.GetClockFreq core
    let core1 := store core 0xFF07 data
    let newFreq := env.GetClockFreq core1
    if currentFreq ≠ newFreq then env.SetClockFreq core1 else core1
  else
    store core address data
termination_by ((if address = 0xFF46 then 3 else if 0xE000 ≤ address ∧ address < 0xFE00 then 1 else 0), 0)
decreasing_by
  · apply Prod.Lex.left
    have h1 : ¬ (address - 0x2000 = 0xFF46) := by omega
    have h2 : ¬ (0xE000 ≤ address - 0x2000 ∧ address - 0x2000 < 0xFE00) := by omega
    have h3 : ¬ (address = 0xFF46) := by omega
    simp [h1, h2, h3, h]
  · apply Prod.Lex.left
    simp [*]

/-- `DoDMA`: source page `data`, 0xA0 bytes to 0xFE00. -/
def DoDMA (env : Env) (core : Core) (data : Nat) : Core :=
  DoDMALoop env core ((data <<< 8) % 65536) 0
termination_by (2, 0xA1)
decreasing_by
  apply Prod.Lex.right
  omega

/-- The loop of `DoDMA` from index `i` on: `for ; i < 0xA0; i++`. -/
def DoDMALoop (env : Env) (core : Core) (address i : Nat) : Core :=
  if h : i < 0xA0 then
    DoDMALoop env
      (WriteMemory env core ((0xFE00 + i) % 65536) (ReadMemory core ((address + i) % 65536)))
      address (i + 1)
  else
    core
termination_by (2, 0xA0 - i)
decreasing_by
  all_goals simp_wf
  · apply Prod.Lex.left
    have h1 : ¬ ((0xFE00 + i) % 65536 = 0xFF46) := by omega
    have h2 : ¬ (0xE000 ≤ (0xFE00 + i) % 65536 ∧ (0xFE00 + i) % 65536 < 0xFE00) := by omega
    simp [h1, h2]
  · apply Prod.Lex.right
    omega

end

/-- `SP--` / `PC-1` on a `uint16`: subtraction of one modulo 2^16. -/
def dec16 (x : Nat) : Nat := (x + 65535) % 65536

/-- Assignment to `core.CPU.Registers.SP`. -/
def setSP (core : Core) (sp : Nat) : Core :=
  { core with CPU := { core.CPU with Registers := { core.CPU.Registers with SP := sp } } }

/-- Assignment to `core.CPU.Registers.PC`. -/
def setPC (core : Core) (pc : Nat) : Core :=
  { core with CPU := { core.CPU with Registers := { core.CPU.Registers with PC := pc } } }

/-- `StackPush`: `SP--`, write the high byte; `SP--`, write the low byte. -/
def StackPush (env : Env) (core : Core) (val : Nat) : Core :=
  let hi := val >>> 8
  let lo := val &&& 0xFF
  let core1 := setSP core (dec16 core.CPU.Registers.SP)
  let core2 := WriteMemory env core1 core1.CPU.Registers.SP (hi % 256)
  let core3 := setSP core2 (dec16 core2.CPU.Registers.SP)
  WriteMemory env core3 core3.CPU.Registers.SP (lo % 256)

/-- `StackPop`: low byte at `SP`, high byte at `SP+1`, then `SP += 2`. -/
def StackPop (core : Core) : Nat × Core :=
  let lo := ReadMemory core core.CPU.Registers.SP
  let hi := ReadMemory core ((core.CPU.Registers.SP + 1) % 65536)
  let core1 := setSP core ((core.CPU.Registers.SP + 2) % 65536)
  ((lo + (hi <<< 8) % 65536) % 65536, core1)

/-- The loading loop of `initMemory` from index `i` on:
`for ; i < ROMLength && i < 0x8000; i++`. -/
def loadRom (core : Core) (i : Nat) : Core :=
  if h : (i : Int) < core.Cartridge.ROMLength ∧ i < 0x8000 then
    loadRom (store core i (core.Cartridge.ReadRom (i % 65536))) (i + 1)
  else
    core
termination_by 0x8000 - i
decreasing_by
  omega

/-- The fixed post-boot register values of `initMemory`, in source order. -/
def ioInit : List (Nat × Nat) :=
  [(0xFF05, 0x00), (0xFF06, 0x00), (0xFF07, 0x00), (0xFF0F, 0xE1), (0xFF10, 0x80),
   (0xFF11, 0xBF), (0xFF12, 0xF3), (0xFF14, 0xBF), (0xFF16, 0x3F), (0xFF17, 0x00),
   (0xFF19, 0xBF), (0xFF1A, 0x7F), (0xFF1B, 0xFF), (0xFF1C, 0x9F), (0xFF1E, 0xBF),
   (0xFF20, 0xFF), (0xFF21, 0x00), (0xFF22, 0x00), (0xFF23, 0xBF), (0xFF24, 0x77),
   (0xFF25, 0xF3), (0xFF26, 0xF1), (0xFF40, 0x91), (0xFF42, 0x00), (0xFF43, 0x00),
   (0xFF45, 0x00), (0xFF47, 0xFC), (0xFF48, 0xFF), (0xFF49, 0xFF), (0xFF4A, 0x00),
   (0xFF4B, 0x00), (0xFFFF, 0x00)]

/-- `initMemory`: load the ROM prefix, then the 32 direct array assignments. -/
def initMemory (core : Core) : Core :=
  ioInit.foldl (fun c p => store c p.1 p.2) (loadRom core 0)

/-! ## Registers, flags and dispatch (`cpu.go`) -/

/-- Modelled from the spec: `util.SetBit` lives in the `util` package, which is
not among the embedded files; it sets bit `pos` of the byte `n`. -/
def SetBit (n pos : Nat) : Nat := (n ||| (1 <<< pos)) % 256

/-- Modelled from the spec: `util.ClearBit` lives in the `util` package, which is
not among the embedded files; it clears bit `pos` of the byte `n`. -/
def ClearBit (n pos : Nat) : Nat := n &&& (255 ^^^ ((1 <<< pos) % 256))

/-- Bit `pos` of a byte, as a boolean. -/
def bitOf (n pos : Nat) : Bool := n.testBit pos

/-- `initCPU`: post-boot flags and registers. The two pending flags are not
assigned. -/
def initCPU (core : Core) : Core :=
  { core with CPU :=
    { Flags := { core.CPU.Flags with
        Zero := true, Sub := false, HalfCarry := true, Carry := true,
        InterruptMaster := false },
      Registers :=
        { A := 0x01, B := 0x00, C := 0x13, D := 0x00, E := 0xD8, F := 0xB0,
          HL := 0x014D, PC := 0x0100, SP := 0xFFFE } } }

/-- `getParameter16`: little-endian word at `PC`, `PC += 2`. -/
def getParameter16 (core : Core) : Nat × Core :=
  let b1 := ReadMemory core core.CPU.Registers.PC
  let b2 := ReadMemory core ((core.CPU.Registers.PC + 1) % 65536)
  let core1 := setPC core ((core.CPU.Registers.PC + 2) % 65536)
  (((b2 <<< 8) % 65536) ||| b1, core1)

/-- `getParameter8`: byte at `PC`, `PC += 1`. -/
def getParameter8 (core : Core) : Nat × Core :=
  let b := ReadMemory core core.CPU.Registers.PC
  let core1 := setPC core ((core.CPU.Registers.PC + 1) % 65536)
  (b, core1)

/-- `getAF`. -/
def CPU.getAF (cpu : CPU) : Nat :=
  ((cpu.Registers.A <<< 8) % 65536) ||| cpu.Registers.F

/-- `setAF`: `A` from the high byte, `F` from the low byte. -/
def CPU.setAF (cpu : CPU) (val : Nat) : CPU :=
  { cpu with Registers := { cpu.Registers with A := (val >>> 8) % 256, F := (val &&& 0xFF) % 256 } }

/-- `setBC`. -/
def CPU.setBC (cpu : CPU) (val : Nat) : CPU :=
  { cpu with Registers := { cpu.Registers with B := (val >>> 8) % 256, C := (val &&& 0xFF) % 256 } }

/-- `getBC`. -/
def CPU.getBC (cpu : CPU) : Nat :=
  ((cpu.Registers.B <<< 8) % 65536) ||| cpu.Registers.C

/-- `getDE`. -/
def CPU.getDE (cpu : CPU) : Nat :=
  ((cpu.Registers.D <<< 8) % 65536) ||| cpu.Registers.E

/-- `updateAFLow`: starting from the current `F`, set or clear bits 7, 6, 5, 4
from `Zero`, `Sub`, `HalfCarry`, `Carry`. -/
def CPU.updateAFLow (cpu : CPU) : CPU :=
  let newAF := cpu.Registers.F
  let newAF := if cpu.Flags.Zero then SetBit newAF 7 else ClearBit newAF 7
  let newAF := if cpu.Flags.Sub then SetBit newAF 6 else ClearBit newAF 6
  let newAF := if cpu.Flags.HalfCarry then SetBit newAF 5 else ClearBit newAF 5
  let newAF := if cpu.Flags.Carry then SetBit newAF 4 else ClearBit newAF 4
  { cpu with Registers := { cpu.Registers with F := newAF } }

/-- `Compare`: assign the four condition flags, then `updateAFLow`. -/
def CPU.Compare (cpu : CPU) (val1 val2 : Nat) : CPU :=
  let cpu1 : CPU := { cpu with Flags := { cpu.Flags with Zero := decide (val1 = val2) } }
  let cpu2 : CPU := { cpu1 with Flags := { cpu1.Flags with Carry := decide (val1 > val2) } }
  let cpu3 : CPU := { cpu2 with Flags := { cpu2.Flags with
    HalfCarry := decide ((val1 &&& 0x0f) > (val2 &&& 0x0f)) } }
  let cpu4 : CPU := { cpu3 with Flags := { cpu3.Flags with Sub := true } }
  cpu4.updateAFLow

/-- What `log.Fatalf` reports when it ends the run: the two format arguments
and the state at that moment. -/
structure Fault where
  code : Nat
  pc : Nat
  core : Core

/-- The deferred-disable check after the handler:
`if PendingInterruptDisabled { if ReadMemory(PC-1) != 0xF3 { ... } }`. -/
def applyPendingDisable (core : Core) : Core :=
  if core.CPU.Flags.PendingInterruptDisabled then
    if ReadMemory core (dec16 core.CPU.Registers.PC) ≠ 0xF3 then
      { core with CPU := { core.CPU with Flags := { core.CPU.Flags with
          PendingInterruptDisabled := false, InterruptMaster := false } } }
    else core
  else core

/-- The deferred-enable check after the handler:
`if PendingInterruptEnabled { if ReadMemory(PC-1) != 0xFB { ... } }`. -/
def applyPendingEnable (core : Core) : Core :=
  if core.CPU.Flags.PendingInterruptEnabled then
    if ReadMemory core (dec16 core.CPU.Registers.PC) ≠ 0xFB then
      { core with CPU := { core.CPU with Flags := { core.CPU.Flags with
          PendingInterruptEnabled := false, InterruptMaster := true } } }
    else core
  else core

/-- `ExecuteOPCode`: run the handler of an assigned opcode, apply the two
deferred interrupt checks and return the clock; an entry with `Clock = 0` is
fatal. The `core.Debug` block only reads registers and logs them. -/
def ExecuteOPCode (env : Env) (core : Core) (code : Nat) : Except Fault (Core × Int) :=
  if (env.OPCodeFunctionMap code).Clock ≠ 0 then
    let r := (env.OPCodeFunctionMap code).Func core
    let extCycles := r.2
    let core1 := applyPendingDisable r.1
    let core2 := applyPendingEnable core1
    Except.ok (core2, (env.OPCodeFunctionMap code).Clock + extCycles)
  else
    Except.error { code := code, pc := dec16 core.CPU.Registers.PC, core := core }

/-- `ExecuteNextOPCode`: fetch at `PC`, `PC++`, dispatch. -/
def ExecuteNextOPCode (env : Env) (core : Core) : Except Fault (Core × Int) :=
  let opcode := ReadMemory core core.CPU.Registers.PC
  let core1 := setPC core ((core.CPU.Registers.PC + 1) % 65536)
  ExecuteOPCode env core1 opcode

/-- The state in which control leaves `ExecuteNextOPCode`: the returned state, or
the state at the fault. -/
def stateAfter (r : Except Fault (Core × Int)) : Core :=
  match r with
  | Except.ok p => p.1
  | Except.error f => f.core

/-- Whether `ExecuteNextOPCode` returned normally. -/
def returned (r : Except Fault (Core × Int)) : Bool :=
  match r with
  | Except.ok _ => true
  | Except.error _ => false

/-! ## Address classes and collaborator contracts -/

/-- An address in one of the two windows that `ReadMemory` hands to the cartridge. -/
def delegated (a : Nat) : Prop := (0x4000 ≤ a ∧ a ≤ 0x7FFF) ∨ (0xA000 ≤ a ∧ a ≤ 0xBFFF)

instance (a : Nat) : Decidable (delegated a) :=
  inferInstanceAs (Decidable ((0x4000 ≤ a ∧ a ≤ 0x7FFF) ∨ (0xA000 ≤ a ∧ a ≤ 0xBFFF)))

/-- An address whose write takes the final `else` branch of `WriteMemory`. -/
def plainStore (a : Nat) : Prop :=
  0x8000 ≤ a ∧ ¬ (0xE000 ≤ a ∧ a < 0xFE00) ∧ ¬ (0xFEA0 ≤ a ∧ a < 0xFEFF) ∧
    a ≠ 0xFF04 ∧ a ≠ 0xFF44 ∧ a ≠ 0xFF46 ∧ a ≠ 0xFF07

instance (a : Nat) : Decidable (plainStore a) :=
  inferInstanceAs (Decidable (0x8000 ≤ a ∧ ¬ (0xE000 ≤ a ∧ a < 0xFE00) ∧ ¬ (0xFEA0 ≤ a ∧ a < 0xFEFF) ∧
    a ≠ 0xFF04 ∧ a ≠ 0xFF44 ∧ a ≠ 0xFF46 ∧ a ≠ 0xFF07))

/-- An address where a written byte is what `ReadMemory` returns afterwards:
above the ROM region, outside the external-RAM window and the discarded range,
and none of the registers 0xFF04, 0xFF44, 0xFF46. -/
def readBack (a : Nat) : Prop :=
  0x8000 ≤ a ∧ ¬ (0xA000 ≤ a ∧ a ≤ 0xBFFF) ∧ ¬ (0xFEA0 ≤ a ∧ a < 0xFEFF) ∧
    a ≠ 0xFF04 ∧ a ≠ 0xFF44 ∧ a ≠ 0xFF46

instance (a : Nat) : Decidable (readBack a) :=
  inferInstanceAs (Decidable (0x8000 ≤ a ∧ ¬ (0xA000 ≤ a ∧ a ≤ 0xBFFF) ∧
    ¬ (0xFEA0 ≤ a ∧ a < 0xFEFF) ∧ a ≠ 0xFF04 ∧ a ≠ 0xFF44 ∧ a ≠ 0xFF46))

/-- A stack slot in work RAM 0xC000-0xDFFF or in 0xFF80-0xFFFF. -/
def stackSlot (a : Nat) : Prop := (0xC000 ≤ a ∧ a ≤ 0xDFFF) ∨ (0xFF80 ≤ a ∧ a ≤ 0xFFFF)

instance (a : Nat) : Decidable (stackSlot a) :=
  inferInstanceAs (Decidable ((0xC000 ≤ a ∧ a ≤ 0xDFFF) ∨ (0xFF80 ≤ a ∧ a ≤ 0xFFFF)))

/-- The contract of the timer collaborator used here: `SetClockFreq` reconfigures
the timer and leaves CPU, cartridge and memory array alone. -/
def Env.timerFrame (env : Env) : Prop :=
  ∀ c, (env.SetClockFreq c).CPU = c.CPU ∧ (env.SetClockFreq c).Cartridge = c.Cartridge ∧
    (env.SetClockFreq c).Memory = c.Memory

/-! ## Sample inputs -/

/-- A 64-byte ROM image of 0xAA bytes; reads past the image give 0. -/
def romAA : Cartridge :=
  { ROMLength := 64
    ReadRom := fun a => if a < 64 then 0xAA else 0
    ReadRomBank := fun a => if a < 64 then 0xAA else 0 }

/-- The zero value of `Core` around a cartridge: what exists before `initCPU`
and `initMemory` run. -/
def freshCore (cart : Cartridge) : Core :=
  { Cartridge := cart
    Memory := { MainMemory := fun _ => 0 }
    CPU :=
      { Registers := { A := 0, B := 0, C := 0, D := 0, E := 0, F := 0, HL := 0, PC := 0, SP := 0 }
        Flags :=
          { Zero := false, Sub := false, HalfCarry := false, Carry := false,
            InterruptMaster := false, PendingInterruptDisabled := false,
            PendingInterruptEnabled := false } }
    Debug := false
    Rest := 0 }

/-- Power-on: `initCPU` then `initMemory` on the zero core around a cartridge. -/
def powerOn (cart : Cartridge) : Core := initMemory (initCPU (freshCore cart))

/-- Handler of 0xF3 (DI): only sets `PendingInterruptDisabled`. -/
def diFunc (core : Core) : Core × Int :=
  ({ core with CPU := { core.CPU with Flags := { core.CPU.Flags with
      PendingInterruptDisabled := true } } }, 0)

/-- Handler of 0xFB (EI): only sets `PendingInterruptEnabled`. -/
def eiFunc (core : Core) : Core × Int :=
  ({ core with CPU := { core.CPU with Flags := { core.CPU.Flags with
      PendingInterruptEnabled := true } } }, 0)

/-- Handler of 0x3E (LD A,d8): `A = getParameter8()`. -/
def ldAd8Func (core : Core) : Core × Int :=
  let r := getParameter8 core
  ({ r.2 with CPU := { r.2.CPU with Registers := { r.2.CPU.Registers with A := r.1 } } }, 0)

/-- A small opcode table (NOP, LD A,d8, DI, EI; every other byte unassigned)
with timer hooks that read the two low bits of 0xFF07 and touch only `Rest`. -/
def sampleEnv : Env :=
  { OPCodeFunctionMap := fun code =>
      if code = 0x00 then { Func := fun c => (c, 0), Clock := 4, OP := "NOP" }
      else if code = 0x3E then { Func := ldAd8Func, Clock := 8, OP := "LD A,d8" }
      else if code = 0xF3 then { Func := diFunc, Clock := 4, OP := "DI" }
      else if code = 0xFB then { Func := eiFunc, Clock := 4, OP := "EI" }
      else { Func := fun c => (c, 0), Clock := 0, OP := "" }
    GetClockFreq := fun c => ((c.Memory.MainMemory 0xFF07 % 4 : Nat) : Int)
    SetClockFreq := fun c => { c with Rest := c.Memory.MainMemory 0xFF07 % 4 } }

/-- Power-on registers, interrupts enabled, `PC = 0xC000`, and the program
`DI ; LD A,0xF3` (bytes F3 3E F3) in work RAM at 0xC000. -/
def diThenLoad : Core :=
  { Cartridge := romAA
    Memory := { MainMemory := fun a =>
      if a = 0xC000 then 0xF3 else if a = 0xC001 then 0x3E else if a = 0xC002 then 0xF3 else 0 }
    CPU :=
      { Registers := { A := 0x01, B := 0x00, C := 0x13, D := 0x00, E := 0xD8, F := 0xB0,
                       HL := 0x014D, PC := 0xC000, SP := 0xFFFE }
        Flags :=
          { Zero := true, Sub := false, HalfCarry := true, Carry := true,
            InterruptMaster := true, PendingInterruptDisabled := false,
            PendingInterruptEnabled := false } }
    Debug := false
    Rest := 0 }

/-- Work RAM holds the unassigned byte 0xD3 at 0xC000 and `PC` points at it. -/
def unassignedAtPC : Core := setPC (store (freshCore romAA) 0xC000 0xD3) 0xC000

/-! ## The calls made on the write path

The control flow of `WriteMemory`, `DoDMA` and its loop once more, this time
yielding the list of what a call does besides assigning: entries into
`WriteMemory` with their nesting depth, log lines, and calls to the cartridge
and the timer hooks. The states in between are those of `WriteMemory`. -/

/-- What happens during a bus write, in order. `banking` is the call
`core.HandleBanking(address, data)`, which the source has commented out. -/
inductive Event where
  | enter (depth address data : Nat)
  | println (msg : String)
  | banking (address data : Nat)
  | readRomBank (address : Nat)
  | getClockFreq
  | setClockFreq
  deriving DecidableEq

/-- The cartridge call made by `ReadMemory`, if any. -/
def ReadMemoryCalls (address : Nat) : List Event :=
  if 0x4000 ≤ address ∧ address ≤ 0x7FFF then
    [Event.readRomBank address]
  else if 0xA000 ≤ address ∧ address ≤ 0xBFFF then
    [Event.readRomBank address]
  else
    []

mutual

/-- The calls of `WriteMemory` entered at nesting depth `depth`. -/
def WriteMemoryCalls (env : Env) (depth : Nat) (core : Core) (address data : Nat) :
    List Event :=
  if address < 0x8000 then
    [Event.enter depth address data, Event.println "todo banking"]
  else if h : 0xE000 ≤ address ∧ address < 0xFE00 then
    Event.enter depth address data ::
      WriteMemoryCalls env (depth + 1) (store core address data) (address - 0x2000) data
  else if 0xFEA0 ≤ address ∧ address < 0xFEFF then
    [Event.enter depth address data]
  else if 0xFF04 = address then
    [Event.enter depth address data]
  else if address = 0xFF44 then
    [Event.enter depth address data]
  else if address = 0xFF46 then
    Event.enter depth address data :: DoDMACalls env (depth + 1) core data
  else if address = 0xFF07 then
    let currentFreq := env.GetClockFreq core
    let core1 := store core 0xFF07 data
    let newFreq := env.GetClockFreq core1
    if currentFreq ≠ newFreq then
      [Event.enter depth address data, Event.getClockFreq, Event.getClockFreq,
        Event.setClockFreq]
    else
      [Event.enter depth address data, Event.getClockFreq, Event.getClockFreq]
  else
    [Event.enter depth address data]
termination_by ((if address = 0xFF46 then 3 else if 0xE000 ≤ address ∧ address < 0xFE00 then 1 else 0), 0)
decreasing_by
  · apply Prod.Lex.left
    have h1 : ¬ (address - 0x2000 = 0xFF46) := by omega
    have h2 : ¬ (0xE000 ≤ address - 0x2000 ∧ address - 0x2000 < 0xFE00) := by omega
    have h3 : ¬ (address = 0xFF46) := by omega
    simp [h1, h2, h3, h]
  · apply Prod.Lex.left
    simp [*]

/-- The calls of `DoDMA`; its nested writes enter at depth `depth`. -/
def DoDMACalls (env : Env) (depth : Nat) (core : Core) (data : Nat) : List Event :=
  DoDMALoopCalls env depth core ((data <<< 8) % 65536) 0
termination_by (2, 0xA1)
decreasing_by
  apply Prod.Lex.right
  omega

/-- The calls of the loop of `DoDMA` from index `i` on: per iteration one
`ReadMemory`, then one `WriteMemory`. -/
def DoDMALoopCalls (env : Env) (depth : Nat) (core : Core) (address i : Nat) : List Event :=
  if _h : i < 0xA0 then
    ReadMemoryCalls ((address + i) % 65536) ++
      WriteMemoryCalls env depth core ((0xFE00 + i) % 65536)
        (ReadMemory core ((address + i) % 65536)) ++
      DoDMALoopCalls env depth
        (WriteMemory env core ((0xFE00 + i) % 65536) (ReadMemory core ((address + i) % 65536)))
        address (i + 1)
  else
    []
termination_by (2, 0xA0 - i)
decreasing_by
  all_goals simp_wf
  · apply Prod.Lex.left
    have h1 : ¬ ((0xFE00 + i) % 65536 = 0xFF46) := by omega
    have h2 : ¬ (0xE000 ≤ (0xFE00 + i) % 65536 ∧ (0xFE00 + i) % 65536 < 0xFE00) := by omega
    simp [h1, h2]
  · apply Prod.Lex.right
    omega

end

/-- The entries into `WriteMemory` among the recorded events, as
(depth, address) pairs in call order. -/
def writeEntries : List Event → List (Nat × Nat)
  | [] => []
  | Event.enter depth address _ :: t => (depth, address) :: writeEntries t
  | _ :: t => writeEntries t

/-! ## Basic facts about `store`, `setSP` and `ReadMemory` -/

@[simp] theorem store_MainMemory (core : Core) (a d x : Nat) :
    (store core a d).Memory.MainMemory x = if x = a then d else core.Memory.MainMemory x := rfl

@[simp] theorem store_Cartridge (core : Core) (a d : Nat) :
    (store core a d).Cartridge = core.Cartridge := rfl

@[simp] theorem store_CPU (core : Core) (a d : Nat) : (store core a d).CPU = core.CPU := rfl

@[simp] theorem store_Debug (core : Core) (a d : Nat) : (store core a d).Debug = core.Debug := rfl

@[simp] theorem store_Rest (core : Core) (a d : Nat) : (store core a d).Rest = core.Rest := rfl

@[simp] theorem setSP_SP (core : Core) (x : Nat) : (setSP core x).CPU.Registers.SP = x := rfl

@[simp] theorem setSP_Memory (core : Core) (x : Nat) : (setSP core x).Memory = core.Memory := rfl

@[simp] theorem setSP_Cartridge (core : Core) (x : Nat) :
    (setSP core x).Cartridge = core.Cartridge := rfl

theorem ReadMemory_eq (core : Core) (a : Nat) :
    ReadMemory core a =
      if delegated a then core.Cartridge.ReadRomBank a else core.Memory.MainMemory a := by
  unfold ReadMemory delegated
  by_cases h1 : 0x4000 ≤ a ∧ a ≤ 0x7FFF
  · simp [h1]
  · by_cases h2 : 0xA000 ≤ a ∧ a ≤ 0xBFFF
    · simp [h1, h2]
    · simp [h1, h2]

theorem ReadMemory_local (core : Core) (a : Nat) (h : ¬ delegated a) :
    ReadMemory core a = core.Memory.MainMemory a := by
  rw [ReadMemory_eq, if_neg h]

theorem ReadMemory_store_ne (core : Core) (a d x : Nat) (h : x ≠ a) :
    ReadMemory (store core a d) x = ReadMemory core x := by
  simp [ReadMemory_eq, h]

/-! ## The branches of `WriteMemory` -/

theorem WriteMemory_rom (env : Env) (core : Core) (a d : Nat) (h : a < 0x8000) :
    WriteMemory env core a d = core := by
  rw [WriteMemory, if_pos h]

theorem WriteMemory_plain (env : Env) (core : Core) (a d : Nat) (h : plainStore a) :
    WriteMemory env core a d = store core a d := by
  obtain ⟨h1, h2, h3, h4, h5, h6, h7⟩ := h
  rw [WriteMemory, if_neg (by omega), dif_neg h2, if_neg h3, if_neg (fun e => h4 e.symm),
    if_neg h5, if_neg h6, if_neg h7]

theorem WriteMemory_echo (env : Env) (core : Core) (a d : Nat)
    (h : 0xE000 ≤ a ∧ a < 0xFE00) :
    WriteMemory env core a d = store (store core a d) (a - 0x2000) d := by
  rw [WriteMemory, if_neg (by omega), dif_pos h]
  apply WriteMemory_plain
  unfold plainStore
  omega

theorem WriteMemory_restricted (env : Env) (core : Core) (a d : Nat)
    (h : 0xFEA0 ≤ a ∧ a < 0xFEFF) : WriteMemory env core a d = core := by
  rw [WriteMemory, if_neg (by omega), dif_neg (by omega), if_pos h]

theorem WriteMemory_div (env : Env) (core : Core) (d : Nat) :
    WriteMemory env core 0xFF04 d = store core 0xFF04 0 := by
  rw [WriteMemory]; simp

theorem WriteMemory_ly (env : Env) (core : Core) (d : Nat) :
    WriteMemory env core 0xFF44 d = store core 0xFF44 0 := by
  rw [WriteMemory]; simp

theorem WriteMemory_dma (env : Env) (core : Core) (d : Nat) :
    WriteMemory env core 0xFF46 d = DoDMA env core d := by
  rw [WriteMemory]; simp

theorem WriteMemory_tac (env : Env) (core : Core) (d : Nat) :
    WriteMemory env core 0xFF07 d =
      if env.GetClockFreq core ≠ env.GetClockFreq (store core 0xFF07 d)
      then env.SetClockFreq (store core 0xFF07 d) else store core 0xFF07 d := by
  rw [WriteMemory]; simp

/-! ## The DMA loop -/

/-- Running the DMA loop from index `i`: everything but the array is kept, the
array is kept outside `0xFE00+i .. 0xFE9F`, and each remaining destination byte
receives what `ReadMemory` gave for its source byte when the loop was entered. -/
theorem DoDMALoop_spec (env : Env) (address : Nat) (hal : address % 256 = 0)
    (hle : address ≤ 0xFF00) :
    ∀ (n i : Nat) (core : Core), 0xA0 - i = n →
      (DoDMALoop env core address i).Cartridge = core.Cartridge ∧
      (DoDMALoop env core address i).CPU = core.CPU ∧
      (DoDMALoop env core address i).Debug = core.Debug ∧
      (DoDMALoop env core address i).Rest = core.Rest ∧
      (∀ a, ¬ (0xFE00 + i ≤ a ∧ a < 0xFEA0) →
        (DoDMALoop env core address i).Memory.MainMemory a = core.Memory.MainMemory a) ∧
      (∀ j, i ≤ j → j < 0xA0 →
        (DoDMALoop env core address i).Memory.MainMemory (0xFE00 + j)
          = ReadMemory core (address + j)) := by
  intro n
  induction n with
  | zero =>
    intro i core hn
    have hi : ¬ i < 0xA0 := by omega
    rw [DoDMALoop, dif_neg hi]
    refine ⟨rfl, rfl, rfl, rfl, fun _ _ => rfl, ?_⟩
    intro j h1 h2
    omega
  | succ n ih =>
    intro i core hn
    have hi : i < 0xA0 := by omega
    have hdst : (0xFE00 + i) % 65536 = 0xFE00 + i := by omega
    have hsrc : (address + i) % 65536 = address + i := by omega
    have hplain : plainStore (0xFE00 + i) := by unfold plainStore; omega
    rw [DoDMALoop, dif_pos hi, hdst, hsrc, WriteMemory_plain env core _ _ hplain]
    obtain ⟨hc, hcpu, hdbg, hrest, hframe, hcopy⟩ :=
      ih (i + 1) (store core (0xFE00 + i) (ReadMemory core (address + i))) (by omega)
    refine ⟨by rw [hc]; rfl, by rw [hcpu]; rfl, by rw [hdbg]; rfl, by rw [hrest]; rfl, ?_, ?_⟩
    · intro a ha
      rw [hframe a (by omega), store_MainMemory, if_neg (by omega)]
    · intro j h1 h2
      by_cases hj : j = i
      · subst hj
        rw [hframe (0xFE00 + j) (by omega), store_MainMemory, if_pos rfl]
      · rw [hcopy j (by omega) h2]
        apply ReadMemory_store_ne
        omega

theorem page_base (p : Nat) : ((p <<< 8) % 65536) % 256 = 0 ∧ (p <<< 8) % 65536 ≤ 0xFF00 := by
  rw [Nat.shiftLeft_eq]
  omega

/-! ## Frame and read-back of a write -/

theorem sampleEnv_timerFrame : sampleEnv.timerFrame := fun _ => ⟨rfl, rfl, rfl⟩

/-- `WriteMemory` never changes the CPU or the cartridge. -/
theorem WriteMemory_frame (env : Env) (henv : env.timerFrame) (core : Core) (a d : Nat) :
    (WriteMemory env core a d).CPU = core.CPU ∧
    (WriteMemory env core a d).Cartridge = core.Cartridge := by
  by_cases h1 : a < 0x8000
  · rw [WriteMemory_rom env core a d h1]; exact ⟨rfl, rfl⟩
  by_cases h2 : 0xE000 ≤ a ∧ a < 0xFE00
  · rw [WriteMemory_echo env core a d h2]; exact ⟨rfl, rfl⟩
  by_cases h3 : 0xFEA0 ≤ a ∧ a < 0xFEFF
  · rw [WriteMemory_restricted env core a d h3]; exact ⟨rfl, rfl⟩
  by_cases h4 : a = 0xFF04
  · subst h4; rw [WriteMemory_div]; exact ⟨rfl, rfl⟩
  by_cases h5 : a = 0xFF44
  · subst h5; rw [WriteMemory_ly]; exact ⟨rfl, rfl⟩
  by_cases h6 : a = 0xFF46
  · subst h6
    rw [WriteMemory_dma, DoDMA]
    obtain ⟨hc, hcpu, _⟩ :=
      DoDMALoop_spec env ((d <<< 8) % 65536) (page_base d).1 (page_base d).2 0xA0 0 core rfl
    exact ⟨hcpu, hc⟩
  by_cases h7 : a = 0xFF07
  · subst h7
    rw [WriteMemory_tac]
    split
    · obtain ⟨hcpu, hc, _⟩ := henv (store core 0xFF07 d)
      exact ⟨by rw [hcpu]; rfl, by rw [hc]; rfl⟩
    · exact ⟨rfl, rfl⟩
  · rw [WriteMemory_plain env core a d ⟨by omega, h2, h3, h4, h5, h6, h7⟩]; exact ⟨rfl, rfl⟩

/-- At a read-back address the written byte lands at that address, and only that
address and the one 0x2000 below can change. -/
theorem WriteMemory_readBack (env : Env) (henv : env.timerFrame) (core : Core) (a d : Nat)
    (h : readBack a) :
    (WriteMemory env core a d).Memory.MainMemory a = d ∧
    (∀ x, x ≠ a → x ≠ a - 0x2000 →
      (WriteMemory env core a d).Memory.MainMemory x = core.Memory.MainMemory x) := by
  obtain ⟨g1, g2, g3, g4, g5, g6⟩ := h
  by_cases h2 : 0xE000 ≤ a ∧ a < 0xFE00
  · rw [WriteMemory_echo env core a d h2]
    constructor
    · simp
    · intro x hx1 hx2
      simp [hx1, hx2]
  by_cases h7 : a = 0xFF07
  · subst h7
    rw [WriteMemory_tac]
    split
    · obtain ⟨_, _, hm⟩ := henv (store core 0xFF07 d)
      rw [hm]
      constructor
      · simp
      · intro x hx1 _
        simp [hx1]
    · constructor
      · simp
      · intro x hx1 _
        simp [hx1]
  · rw [WriteMemory_plain env core a d ⟨g1, h2, g3, g4, g5, g6, h7⟩]
    constructor
    · simp
    · intro x hx1 _
      simp [hx1]

theorem word_of_bytes (v : Nat) (hv : v < 65536) :
    ((v &&& 0xFF) % 256 + (((v >>> 8) % 256) <<< 8) % 65536) % 65536 = v := by
  have h1 : v &&& 0xFF = v % 256 := Nat.and_pow_two_sub_one_eq_mod v 8
  rw [h1, Nat.shiftRight_eq_div_pow, Nat.shiftLeft_eq]
  omega

/-- After `StackPush`: `SP` is two lower (mod 2^16); when both slots are
read-back addresses the array holds the high byte at `SP-1` and the low byte at
`SP-2`. -/
theorem StackPush_spec (env : Env) (henv : env.timerFrame) (core : Core) (v : Nat) :
    (StackPush env core v).CPU.Registers.SP = dec16 (dec16 core.CPU.Registers.SP) ∧
    (StackPush env core v).Cartridge = core.Cartridge ∧
    (readBack (dec16 core.CPU.Registers.SP) →
      readBack (dec16 (dec16 core.CPU.Registers.SP)) →
      (StackPush env core v).Memory.MainMemory (dec16 core.CPU.Registers.SP) = (v >>> 8) % 256 ∧
      (StackPush env core v).Memory.MainMemory (dec16 (dec16 core.CPU.Registers.SP))
        = (v &&& 0xFF) % 256) := by
  unfold StackPush
  simp only [setSP_SP]
  obtain ⟨hcpu1, hcart1⟩ :=
    WriteMemory_frame env henv (setSP core (dec16 core.CPU.Registers.SP))
      (dec16 core.CPU.Registers.SP) ((v >>> 8) % 256)
  have hsp1 : (WriteMemory env (setSP core (dec16 core.CPU.Registers.SP))
      (dec16 core.CPU.Registers.SP) ((v >>> 8) % 256)).CPU.Registers.SP
      = dec16 core.CPU.Registers.SP := by rw [hcpu1]; rfl
  rw [hsp1]
  obtain ⟨hcpu2, hcart2⟩ :=
    WriteMemory_frame env henv
      (setSP (WriteMemory env (setSP core (dec16 core.CPU.Registers.SP))
        (dec16 core.CPU.Registers.SP) ((v >>> 8) % 256)) (dec16 (dec16 core.CPU.Registers.SP)))
      (dec16 (dec16 core.CPU.Registers.SP)) ((v &&& 0xFF) % 256)
  refine ⟨by rw [hcpu2]; rfl, by rw [hcart2, setSP_Cartridge, hcart1, setSP_Cartridge], ?_⟩
  intro r1 r2
  obtain ⟨hw1, _⟩ := WriteMemory_readBack env henv (setSP core (dec16 core.CPU.Registers.SP))
    (dec16 core.CPU.Registers.SP) ((v >>> 8) % 256) r1
  obtain ⟨hw2, hf2⟩ := WriteMemory_readBack env henv
    (setSP (WriteMemory env (setSP core (dec16 core.CPU.Registers.SP))
      (dec16 core.CPU.Registers.SP) ((v >>> 8) % 256)) (dec16 (dec16 core.CPU.Registers.SP)))
    (dec16 (dec16 core.CPU.Registers.SP)) ((v &&& 0xFF) % 256) r2
  refine ⟨?_, hw2⟩
  have hne1 : dec16 core.CPU.Registers.SP ≠ dec16 (dec16 core.CPU.Registers.SP) := by
    unfold dec16; omega
  have hne2 : dec16 core.CPU.Registers.SP ≠ dec16 (dec16 core.CPU.Registers.SP) - 0x2000 := by
    unfold readBack at r1 r2
    unfold dec16 at *
    omega
  rw [hf2 _ hne1 hne2, setSP_Memory]
  exact hw1

/-! ## Flag serialisation -/

theorem bitOf_SetBit (n p q : Nat) (hq : q < 8) :
    bitOf (SetBit n p) q = (decide (q = p) || bitOf n q) := by
  unfold bitOf SetBit
  have h256 : (256 : Nat) = 2 ^ 8 := rfl
  rw [h256, Nat.testBit_mod_two_pow, Nat.testBit_or, Nat.one_shiftLeft, Nat.testBit_two_pow]
  simp [hq, Bool.or_comm, eq_comm]

theorem bitOf_ClearBit (n p q : Nat) (hp : p < 8) (hq : q < 8) :
    bitOf (ClearBit n p) q = (!decide (q = p) && bitOf n q) := by
  unfold bitOf ClearBit
  rw [Nat.testBit_and]
  have hc : (255 ^^^ ((1 <<< p) % 256)).testBit q = !decide (q = p) := by
    interval_cases p <;> interval_cases q <;> decide
  rw [hc, Bool.and_comm]

/-- After `updateAFLow`, bits 7, 6, 5, 4 of `F` are `Zero`, `Sub`, `HalfCarry`,
`Carry`; flags and the other registers are as before. -/
theorem updateAFLow_bits (cpu : CPU) :
    bitOf cpu.updateAFLow.Registers.F 7 = cpu.Flags.Zero ∧
    bitOf cpu.updateAFLow.Registers.F 6 = cpu.Flags.Sub ∧
    bitOf cpu.updateAFLow.Registers.F 5 = cpu.Flags.HalfCarry ∧
    bitOf cpu.updateAFLow.Registers.F 4 = cpu.Flags.Carry ∧
    cpu.updateAFLow.Flags = cpu.Flags ∧
    cpu.updateAFLow.Registers = { cpu.Registers with F := cpu.updateAFLow.Registers.F } := by
  obtain ⟨regs, ⟨z, n, h, c, im, pd, pe⟩⟩ := cpu
  cases z <;> cases n <;> cases h <;> cases c <;>
    simp [CPU.updateAFLow, bitOf_SetBit, bitOf_ClearBit]

/-! ## The two deferred checks -/

/-- With no enable pending and the byte at `PC-1` equal to 0xF3, the two checks
after the handler leave the state as it is. -/
theorem applyPending_at_F3 (core : Core)
    (hpe : core.CPU.Flags.PendingInterruptEnabled = false)
    (hb : ReadMemory core (dec16 core.CPU.Registers.PC) = 0xF3) :
    applyPendingEnable (applyPendingDisable core) = core := by
  have h1 : applyPendingDisable core = core := by
    unfold applyPendingDisable
    simp [hb]
  rw [h1]
  unfold applyPendingEnable
  simp [hpe]

/-- With a disable pending, no enable pending and a byte other than 0xF3 at
`PC-1`, the two checks clear the pending flag and `InterruptMaster`. -/
theorem applyPending_off_F3 (core : Core)
    (hpd : core.CPU.Flags.PendingInterruptDisabled = true)
    (hpe : core.CPU.Flags.PendingInterruptEnabled = false)
    (hb : ReadMemory core (dec16 core.CPU.Registers.PC) ≠ 0xF3) :
    (applyPendingEnable (applyPendingDisable core)).CPU.Flags.PendingInterruptDisabled = false ∧
    (applyPendingEnable (applyPendingDisable core)).CPU.Flags.InterruptMaster = false := by
  have h1 : applyPendingDisable core =
      { core with CPU := { core.CPU with Flags := { core.CPU.Flags with
          PendingInterruptDisabled := false, InterruptMaster := false } } } := by
    unfold applyPendingDisable
    simp [hpd, hb]
  rw [h1]
  unfold applyPendingEnable
  simp [hpe]

/-! ## Initial memory -/

/-- The loading loop from index `i`: array bytes `i ≤ x < min(ROMLength, 0x8000)`
become `ReadRom(x)`, every other byte and everything outside the array stays. -/
theorem loadRom_spec :
    ∀ (n i : Nat) (core : Core), 0x8000 - i = n →
      (loadRom core i).Cartridge = core.Cartridge ∧
      (loadRom core i).CPU = core.CPU ∧
      (∀ x, (loadRom core i).Memory.MainMemory x =
        if i ≤ x ∧ (x : Int) < core.Cartridge.ROMLength ∧ x < 0x8000
        then core.Cartridge.ReadRom x else core.Memory.MainMemory x) := by
  intro n
  induction n with
  | zero =>
    intro i core hn
    rw [loadRom, dif_neg (by omega)]
    refine ⟨rfl, rfl, ?_⟩
    intro x
    rw [if_neg (by omega)]
  | succ n ih =>
    intro i core hn
    by_cases hc : (i : Int) < core.Cartridge.ROMLength ∧ i < 0x8000
    · rw [loadRom, dif_pos hc]
      obtain ⟨h1, h2, h3⟩ := ih (i + 1) (store core i (core.Cartridge.ReadRom (i % 65536)))
        (by omega)
      refine ⟨by rw [h1, store_Cartridge], by rw [h2, store_CPU], ?_⟩
      intro x
      rw [h3 x, store_Cartridge, store_MainMemory]
      have hi : i % 65536 = i := by omega
      by_cases hx : x = i
      · subst hx
        rw [if_neg (by omega), if_pos rfl, hi, if_pos ⟨le_refl _, hc.1, hc.2⟩]
      · by_cases hr : i + 1 ≤ x ∧ (x : Int) < core.Cartridge.ROMLength ∧ x < 0x8000
        · rw [if_pos hr, if_pos ⟨by omega, hr.2.1, hr.2.2⟩]
        · rw [if_neg hr, if_neg hx, if_neg (by omega)]
    · rw [loadRom, dif_neg hc]
      refine ⟨rfl, rfl, ?_⟩
      intro x
      rw [if_neg (by omega)]

/-- A run of array assignments: the last pair for an address wins, an address
with no pair keeps its byte. -/
theorem foldl_store_mem (l : List (Nat × Nat)) :
    ∀ (core : Core) (x : Nat),
      (l.foldl (fun c p => store c p.1 p.2) core).Memory.MainMemory x
        = (l.reverse.lookup x).getD (core.Memory.MainMemory x) := by
  induction l with
  | nil => intro core x; rfl
  | cons p l ih =>
    intro core x
    rw [List.foldl_cons, ih, List.reverse_cons, List.lookup_append, store_MainMemory]
    cases hl : List.lookup x l.reverse with
    | some v => simp
    | none =>
      by_cases hx : x = p.1
      · simp [List.lookup, hx]
      · have hb : (x == p.1) = false := by simpa using hx
        simp [List.lookup, hx, hb]

theorem foldl_store_frame (l : List (Nat × Nat)) :
    ∀ (core : Core),
      (l.foldl (fun c p => store c p.1 p.2) core).CPU = core.CPU ∧
      (l.foldl (fun c p => store c p.1 p.2) core).Cartridge = core.Cartridge := by
  induction l with
  | nil => intro core; exact ⟨rfl, rfl⟩
  | cons p l ih =>
    intro core
    rw [List.foldl_cons]
    obtain ⟨h1, h2⟩ := ih (store core p.1 p.2)
    exact ⟨by rw [h1, store_CPU], by rw [h2, store_Cartridge]⟩

/-- The array after `initMemory`: the fixed register value where one is listed,
the ROM byte below `min(ROMLength, 0x8000)`, the old byte elsewhere. -/
theorem initMemory_mem (core : Core) (x : Nat) :
    (initMemory core).Memory.MainMemory x =
      (ioInit.reverse.lookup x).getD
        (if (x : Int) < core.Cartridge.ROMLength ∧ x < 0x8000
         then core.Cartridge.ReadRom x else core.Memory.MainMemory x) := by
  unfold initMemory
  rw [foldl_store_mem, (loadRom_spec 0x8000 0 core rfl).2.2 x]
  simp

theorem initMemory_frame (core : Core) :
    (initMemory core).CPU = core.CPU ∧ (initMemory core).Cartridge = core.Cartridge := by
  unfold initMemory
  obtain ⟨h1, h2⟩ := foldl_store_frame ioInit (loadRom core 0)
  obtain ⟨h3, h4, _⟩ := loadRom_spec 0x8000 0 core rfl
  exact ⟨by rw [h1, h4], by rw [h2, h3]⟩

theorem powerOn_mem (cart : Cartridge) (x : Nat) :
    (powerOn cart).Memory.MainMemory x =
      (ioInit.reverse.lookup x).getD
        (if (x : Int) < cart.ROMLength ∧ x < 0x8000 then cart.ReadRom x else 0) := by
  unfold powerOn
  rw [initMemory_mem]
  rfl

/-! ## Reads and DMA -/

/-- C1: for every core state and address, `ReadMemory` returns the cartridge's
`ReadRomBank` result when the address lies in 0x4000-0x7FFF or 0xA000-0xBFFF
(one delegate for both windows, independent of the local array) and the local
array byte otherwise. The read is a function of the state that yields only the
byte: the source body assigns nothing. -/
theorem ReadMemory_routing (core : Core) (a : Nat) :
    ReadMemory core a =
      if (0x4000 ≤ a ∧ a ≤ 0x7FFF) ∨ (0xA000 ≤ a ∧ a ≤ 0xBFFF)
      then core.Cartridge.ReadRomBank a
      else core.Memory.MainMemory a :=
  ReadMemory_eq core a

/-- C2: after `WriteMemory(0xFF46, p)` every OAM byte `0xFE00+i`, `i < 0xA0`,
reads as `ReadMemory(p*0x100 + i)` did before the transfer, for every page
byte `p` (0xFE and the cartridge windows included), and no array byte outside
0xFE00-0xFE9F changes, 0xFF46 among them. -/
theorem DMA_transfer (env : Env) (core : Core) (p : Nat) (hp : p < 256) :
    (∀ i, i < 0xA0 →
      ReadMemory (WriteMemory env core 0xFF46 p) (0xFE00 + i) = ReadMemory core (p * 256 + i)) ∧
    (∀ a, ¬ (0xFE00 ≤ a ∧ a ≤ 0xFE9F) →
      (WriteMemory env core 0xFF46 p).Memory.MainMemory a = core.Memory.MainMemory a) := by
  have hbase : (p <<< 8) % 65536 = p * 256 := by
    rw [Nat.shiftLeft_eq]
    omega
  obtain ⟨_, _, _, _, hframe, hcopy⟩ :=
    DoDMALoop_spec env (p * 256) (by omega) (by omega) 0xA0 0 core rfl
  rw [WriteMemory_dma, DoDMA, hbase]
  constructor
  · intro i hi
    rw [ReadMemory_local _ _ (by unfold delegated; omega)]
    exact hcopy i (by omega) hi
  · intro a ha
    exact hframe a (by omega)

/-- Witness for C2: page 0xC1 on the fresh core. -/
theorem DMA_transfer_witness :
    (0xC1 < 256) ∧
    ((∀ i, i < 0xA0 →
      ReadMemory (WriteMemory sampleEnv (freshCore romAA) 0xFF46 0xC1) (0xFE00 + i)
        = ReadMemory (freshCore romAA) (0xC1 * 256 + i)) ∧
    (∀ a, ¬ (0xFE00 ≤ a ∧ a ≤ 0xFE9F) →
      (WriteMemory sampleEnv (freshCore romAA) 0xFF46 0xC1).Memory.MainMemory a
        = (freshCore romAA).Memory.MainMemory a)) :=
  ⟨by decide, DMA_transfer sampleEnv (freshCore romAA) 0xC1 (by decide)⟩

/-! ## Stack round trip -/

/-- C3 (amended): with a 16-bit `SP` and a 16-bit `v`, `StackPush(v)` followed by
`StackPop()` always restores `SP`; the popped word is `v` whenever the two slots
`SP-1` and `SP-2` (mod 2^16) are read-back addresses, that is neither in the ROM
region, the external-RAM window, the discarded range nor one of 0xFF04, 0xFF44,
0xFF46. -/
theorem StackPush_StackPop (env : Env) (henv : env.timerFrame) (core : Core) (v : Nat)
    (hv : v < 65536) (hsp : core.CPU.Registers.SP < 65536) :
    (StackPop (StackPush env core v)).2.CPU.Registers.SP = core.CPU.Registers.SP ∧
    (readBack (dec16 core.CPU.Registers.SP) →
      readBack (dec16 (dec16 core.CPU.Registers.SP)) →
      (StackPop (StackPush env core v)).1 = v) := by
  obtain ⟨hsp2, _, hmem⟩ := StackPush_spec env henv core v
  constructor
  · unfold StackPop
    simp only [setSP_SP, hsp2]
    unfold dec16
    omega
  · intro r1 r2
    obtain ⟨hhi, hlo⟩ := hmem r1 r2
    have hnext : (dec16 (dec16 core.CPU.Registers.SP) + 1) % 65536 = dec16 core.CPU.Registers.SP := by
      unfold dec16; omega
    have hd1 : ¬ delegated (dec16 core.CPU.Registers.SP) := by
      unfold readBack at r1; unfold delegated; omega
    have hd2 : ¬ delegated (dec16 (dec16 core.CPU.Registers.SP)) := by
      unfold readBack at r2; unfold delegated; omega
    unfold StackPop
    simp only [hsp2, hnext]
    rw [ReadMemory_local _ _ hd1, ReadMemory_local _ _ hd2, hhi, hlo]
    exact word_of_bytes v hv

/-- Witness for C3 (amended): pushing 0x1234 at the power-on stack pointer. -/
theorem StackPush_StackPop_witness :
    sampleEnv.timerFrame ∧ 0x1234 < 65536 ∧
    (initCPU (freshCore romAA)).CPU.Registers.SP < 65536 ∧
    (StackPop (StackPush sampleEnv (initCPU (freshCore romAA)) 0x1234)).2.CPU.Registers.SP
      = (initCPU (freshCore romAA)).CPU.Registers.SP ∧
    (StackPop (StackPush sampleEnv (initCPU (freshCore romAA)) 0x1234)).1 = 0x1234 :=
  ⟨sampleEnv_timerFrame, by decide, by decide,
    (StackPush_StackPop sampleEnv sampleEnv_timerFrame (initCPU (freshCore romAA)) 0x1234
      (by decide) (by decide)).1,
    (StackPush_StackPop sampleEnv sampleEnv_timerFrame (initCPU (freshCore romAA)) 0x1234
      (by decide) (by decide)).2 (by decide) (by decide)⟩

/-- C3 (as stated) fails: with `SP = 0x0100` both pushes land in the ROM region
and are dropped, so on a zeroed array the pop returns 0 instead of 0x1234. -/
theorem StackPush_StackPop_rom_counterexample :
    (StackPop (StackPush sampleEnv (setSP (freshCore romAA) 0x0100) 0x1234)).1 = 0 ∧
    (StackPop (StackPush sampleEnv (setSP (freshCore romAA) 0x0100) 0x1234)).1 ≠ 0x1234 := by
  have h : StackPush sampleEnv (setSP (freshCore romAA) 0x0100) 0x1234
      = setSP (freshCore romAA) 0xFE := by
    unfold StackPush
    simp only [setSP_SP]
    have e1 : dec16 0x0100 = 0xFF := by simp [dec16]
    rw [e1, WriteMemory_rom sampleEnv _ 0xFF _ (by norm_num)]
    simp only [setSP_SP]
    have e2 : dec16 0xFF = 0xFE := by simp [dec16]
    rw [e2, WriteMemory_rom sampleEnv _ 0xFE _ (by norm_num)]
    rfl
  rw [h]
  constructor
  · decide
  · decide

/-! ## Deferred interrupt switch -/

/-- C4 (defect): after `DI` the next instruction is `LD A,0xF3` (opcode 0x3E, not
0xF3). Both instructions return normally; after the second one `PC-1` points at
the operand byte 0xF3, so `PendingInterruptDisabled` is still set and
`InterruptMaster` is still true. -/
theorem DI_then_LD_F3_keeps_InterruptMaster :
    returned (ExecuteNextOPCode sampleEnv diThenLoad) = true ∧
    (stateAfter (ExecuteNextOPCode sampleEnv diThenLoad)).CPU.Flags.InterruptMaster = true ∧
    (stateAfter (ExecuteNextOPCode sampleEnv diThenLoad)).CPU.Flags.PendingInterruptDisabled = true ∧
    ReadMemory (stateAfter (ExecuteNextOPCode sampleEnv diThenLoad))
      (stateAfter (ExecuteNextOPCode sampleEnv diThenLoad)).CPU.Registers.PC = 0x3E ∧
    returned (ExecuteNextOPCode sampleEnv (stateAfter (ExecuteNextOPCode sampleEnv diThenLoad)))
      = true ∧
    (stateAfter (ExecuteNextOPCode sampleEnv
      (stateAfter (ExecuteNextOPCode sampleEnv diThenLoad)))).CPU.Registers.PC = 0xC003 ∧
    (stateAfter (ExecuteNextOPCode sampleEnv
      (stateAfter (ExecuteNextOPCode sampleEnv diThenLoad)))).CPU.Flags.PendingInterruptDisabled
      = true ∧
    (stateAfter (ExecuteNextOPCode sampleEnv
      (stateAfter (ExecuteNextOPCode sampleEnv diThenLoad)))).CPU.Flags.InterruptMaster = true := by
  refine ⟨?_, ?_, ?_, ?_, ?_, ?_, ?_, ?_⟩ <;> decide

/-! ## Compare -/

/-- C5: for all `x`, `y` and every prior CPU state, `Compare(x, y)` leaves
`Zero = (x == y)`, `Carry = (x > y)`, `HalfCarry = ((x & 0xF) > (y & 0xF))`,
`Sub = true`, bits 7, 6, 5, 4 of `F` equal to `Zero`, `Sub`, `HalfCarry`, `Carry`,
and changes neither a register other than `F` nor `InterruptMaster` nor a
pending flag. -/
theorem Compare_flags (cpu : CPU) (x y : Nat) :
    (cpu.Compare x y).Flags.Zero = decide (x = y) ∧
    (cpu.Compare x y).Flags.Carry = decide (x > y) ∧
    (cpu.Compare x y).Flags.HalfCarry = decide ((x &&& 0xF) > (y &&& 0xF)) ∧
    (cpu.Compare x y).Flags.Sub = true ∧
    bitOf (cpu.Compare x y).Registers.F 7 = (cpu.Compare x y).Flags.Zero ∧
    bitOf (cpu.Compare x y).Registers.F 6 = (cpu.Compare x y).Flags.Sub ∧
    bitOf (cpu.Compare x y).Registers.F 5 = (cpu.Compare x y).Flags.HalfCarry ∧
    bitOf (cpu.Compare x y).Registers.F 4 = (cpu.Compare x y).Flags.Carry ∧
    (cpu.Compare x y).Registers = { cpu.Registers with F := (cpu.Compare x y).Registers.F } ∧
    (cpu.Compare x y).Flags.InterruptMaster = cpu.Flags.InterruptMaster ∧
    (cpu.Compare x y).Flags.PendingInterruptDisabled = cpu.Flags.PendingInterruptDisabled ∧
    (cpu.Compare x y).Flags.PendingInterruptEnabled = cpu.Flags.PendingInterruptEnabled := by
  unfold CPU.Compare
  simp only []
  obtain ⟨b7, b6, b5, b4, hfl, hregs⟩ := updateAFLow_bits
    { cpu with Flags := { cpu.Flags with
        Zero := decide (x = y), Carry := decide (x > y),
        HalfCarry := decide ((x &&& 0x0f) > (y &&& 0x0f)), Sub := true } }
  refine ⟨?_, ?_, ?_, ?_, ?_, ?_, ?_, ?_, ?_, ?_, ?_, ?_⟩
  · rw [hfl]
  · rw [hfl]
  · rw [hfl]
  · rw [hfl]
  · rw [hfl]; exact b7
  · rw [hfl]; exact b6
  · rw [hfl]; exact b5
  · rw [hfl]; exact b4
  · exact hregs
  · rw [hfl]
  · rw [hfl]
  · rw [hfl]

/-! ## Special write branches -/

/-- C6: for `a` in 0xE000-0xFDFF, `WriteMemory(a, v)` stores `v` in the array at
`a` and at `a - 0x2000`, changes no other byte and nothing outside the array,
and `ReadMemory(a - 0x2000)` then yields `v`. -/
theorem echo_write_mirrors (env : Env) (core : Core) (a v : Nat)
    (h : 0xE000 ≤ a ∧ a ≤ 0xFDFF) :
    (∀ x, (WriteMemory env core a v).Memory.MainMemory x
      = if x = a ∨ x = a - 0x2000 then v else core.Memory.MainMemory x) ∧
    (WriteMemory env core a v).CPU = core.CPU ∧
    (WriteMemory env core a v).Cartridge = core.Cartridge ∧
    ReadMemory (WriteMemory env core a v) (a - 0x2000) = v := by
  rw [WriteMemory_echo env core a v (by omega)]
  refine ⟨?_, rfl, rfl, ?_⟩
  · intro x
    by_cases h1 : x = a - 0x2000
    · simp [h1]
    · by_cases h2 : x = a
      · simp [h2]
      · simp [h1, h2]
  · rw [ReadMemory_local _ _ (by unfold delegated; omega)]
    simp

/-- Witness for C6: a write of 0x5A to 0xE000. -/
theorem echo_write_mirrors_witness :
    (0xE000 ≤ 0xE000 ∧ 0xE000 ≤ 0xFDFF) ∧
    ((∀ x, (WriteMemory sampleEnv (freshCore romAA) 0xE000 0x5A).Memory.MainMemory x
      = if x = 0xE000 ∨ x = 0xE000 - 0x2000 then 0x5A
        else (freshCore romAA).Memory.MainMemory x) ∧
    (WriteMemory sampleEnv (freshCore romAA) 0xE000 0x5A).CPU = (freshCore romAA).CPU ∧
    (WriteMemory sampleEnv (freshCore romAA) 0xE000 0x5A).Cartridge
      = (freshCore romAA).Cartridge ∧
    ReadMemory (WriteMemory sampleEnv (freshCore romAA) 0xE000 0x5A) (0xE000 - 0x2000) = 0x5A) :=
  ⟨by decide, echo_write_mirrors sampleEnv (freshCore romAA) 0xE000 0x5A (by decide)⟩

/-- C7: for `a` in 0xFEA0-0xFEFE, `WriteMemory(a, v)` returns the state it was
given, so `ReadMemory(a)` is the same before and after. -/
theorem restricted_write_discarded (env : Env) (core : Core) (a v : Nat)
    (h : 0xFEA0 ≤ a ∧ a ≤ 0xFEFE) :
    WriteMemory env core a v = core ∧
    ReadMemory (WriteMemory env core a v) a = ReadMemory core a := by
  have e : WriteMemory env core a v = core := WriteMemory_restricted env core a v (by omega)
  exact ⟨e, by rw [e]⟩

/-- Witness for C7: a write of 0x5A to 0xFEA0. -/
theorem restricted_write_discarded_witness :
    (0xFEA0 ≤ 0xFEA0 ∧ 0xFEA0 ≤ 0xFEFE) ∧
    (WriteMemory sampleEnv (freshCore romAA) 0xFEA0 0x5A = freshCore romAA ∧
    ReadMemory (WriteMemory sampleEnv (freshCore romAA) 0xFEA0 0x5A) 0xFEA0
      = ReadMemory (freshCore romAA) 0xFEA0) :=
  ⟨by decide, restricted_write_discarded sampleEnv (freshCore romAA) 0xFEA0 0x5A (by decide)⟩

/-- C8: whatever is written to 0xFF04, `ReadMemory(0xFF04)` is 0 afterwards and
every other array byte is as before; the same for 0xFF44. -/
theorem reset_registers (env : Env) (core : Core) (v : Nat) :
    ReadMemory (WriteMemory env core 0xFF04 v) 0xFF04 = 0 ∧
    (∀ x, (WriteMemory env core 0xFF04 v).Memory.MainMemory x
      = if x = 0xFF04 then 0 else core.Memory.MainMemory x) ∧
    ReadMemory (WriteMemory env core 0xFF44 v) 0xFF44 = 0 ∧
    (∀ x, (WriteMemory env core 0xFF44 v).Memory.MainMemory x
      = if x = 0xFF44 then 0 else core.Memory.MainMemory x) := by
  rw [WriteMemory_div, WriteMemory_ly]
  refine ⟨?_, fun x => rfl, ?_, fun x => rfl⟩
  · rw [ReadMemory_local _ _ (by unfold delegated; omega)]
    simp
  · rw [ReadMemory_local _ _ (by unfold delegated; omega)]
    simp

/-! ## Unassigned opcodes -/

/-- C9: when the byte fetched at `PC` has a table entry with `Clock = 0`,
`ExecuteNextOPCode` ends in the fault carrying that byte and the pre-fetch `PC`;
the state at the fault is the pre-call state with `PC` advanced by one (mod
2^16), whatever the entry's handler is. Conversely `ExecuteOPCode` faults only
on an entry with `Clock = 0`. -/
theorem unassigned_opcode_fault (env : Env) (core : Core)
    (hpc : core.CPU.Registers.PC < 65536)
    (hclk : (env.OPCodeFunctionMap (ReadMemory core core.CPU.Registers.PC)).Clock = 0) :
    ExecuteNextOPCode env core =
      Except.error
        { code := ReadMemory core core.CPU.Registers.PC
          pc := core.CPU.Registers.PC
          core := setPC core ((core.CPU.Registers.PC + 1) % 65536) } ∧
    (∀ (c : Core) (code : Nat) (f : Fault),
      ExecuteOPCode env c code = Except.error f → (env.OPCodeFunctionMap code).Clock = 0) := by
  constructor
  · unfold ExecuteNextOPCode ExecuteOPCode
    simp only [hclk, ne_eq, not_true_eq_false, if_false]
    have hback : dec16 (setPC core ((core.CPU.Registers.PC + 1) % 65536)).CPU.Registers.PC
        = core.CPU.Registers.PC := by
      show dec16 ((core.CPU.Registers.PC + 1) % 65536) = core.CPU.Registers.PC
      unfold dec16
      omega
    rw [hback]
  · intro c code f hf
    unfold ExecuteOPCode at hf
    by_cases h0 : (env.OPCodeFunctionMap code).Clock = 0
    · exact h0
    · simp [h0] at hf

/-- Witness for C9: the byte 0xD3 at `PC = 0xC000`. -/
theorem unassigned_opcode_fault_witness :
    unassignedAtPC.CPU.Registers.PC < 65536 ∧
    (sampleEnv.OPCodeFunctionMap
      (ReadMemory unassignedAtPC unassignedAtPC.CPU.Registers.PC)).Clock = 0 ∧
    (ExecuteNextOPCode sampleEnv unassignedAtPC =
      Except.error
        { code := ReadMemory unassignedAtPC unassignedAtPC.CPU.Registers.PC
          pc := unassignedAtPC.CPU.Registers.PC
          core := setPC unassignedAtPC ((unassignedAtPC.CPU.Registers.PC + 1) % 65536) } ∧
    (∀ (c : Core) (code : Nat) (f : Fault),
      ExecuteOPCode sampleEnv c code = Except.error f →
        (sampleEnv.OPCodeFunctionMap code).Clock = 0)) :=
  ⟨by decide, by decide,
    unassigned_opcode_fault sampleEnv unassignedAtPC (by decide) (by decide)⟩

/-! ## Power-on -/

/-- C10 (amended): with a 64-byte ROM of 0xAA bytes, after `initCPU` and
`initMemory` on a fresh core: `ReadMemory(0x0000) = 0xAA`, `ReadMemory(0x3F) =
0xAA` (the last loaded byte), `ReadMemory(0x40) = 0x00` (the first byte past
the image, never loaded), `ReadMemory(0xFF47) = 0xFC`, `PC = 0x0100`,
`SP = 0xFFFE`, `A = 0x01`, and `F = 0xB0` has bits 7, 6, 5, 4 equal to
`Zero = true`, `Sub = false`, `HalfCarry = true`, `Carry = true`. -/
theorem power_on_scenario (cart : Cartridge) (hlen : cart.ROMLength = 64)
    (hrom : ∀ a, a < 64 → cart.ReadRom a = 0xAA) :
    ReadMemory (powerOn cart) 0x0000 = 0xAA ∧
    ReadMemory (powerOn cart) 0x3F = 0xAA ∧
    ReadMemory (powerOn cart) 0x40 = 0x00 ∧
    ReadMemory (powerOn cart) 0xFF47 = 0xFC ∧
    (powerOn cart).CPU.Registers.PC = 0x0100 ∧
    (powerOn cart).CPU.Registers.SP = 0xFFFE ∧
    (powerOn cart).CPU.Registers.A = 0x01 ∧
    (powerOn cart).CPU.Registers.F = 0xB0 ∧
    (powerOn cart).CPU.Flags.Zero = true ∧
    (powerOn cart).CPU.Flags.Sub = false ∧
    (powerOn cart).CPU.Flags.HalfCarry = true ∧
    (powerOn cart).CPU.Flags.Carry = true ∧
    bitOf (powerOn cart).CPU.Registers.F 7 = (powerOn cart).CPU.Flags.Zero ∧
    bitOf (powerOn cart).CPU.Registers.F 6 = (powerOn cart).CPU.Flags.Sub ∧
    bitOf (powerOn cart).CPU.Registers.F 5 = (powerOn cart).CPU.Flags.HalfCarry ∧
    bitOf (powerOn cart).CPU.Registers.F 4 = (powerOn cart).CPU.Flags.Carry := by
  have hcpu : (powerOn cart).CPU = (initCPU (freshCore cart)).CPU :=
    (initMemory_frame (initCPU (freshCore cart))).1
  have l0 : ioInit.reverse.lookup 0x0000 = none := by decide
  have l3F : ioInit.reverse.lookup 0x3F = none := by decide
  have l40 : ioInit.reverse.lookup 0x40 = none := by decide
  have l47 : ioInit.reverse.lookup 0xFF47 = some 0xFC := by decide
  refine ⟨?_, ?_, ?_, ?_, ?_⟩
  · rw [ReadMemory_local _ _ (by unfold delegated; omega), powerOn_mem, l0, hlen,
      if_pos (by omega), hrom 0 (by omega)]
    rfl
  · rw [ReadMemory_local _ _ (by unfold delegated; omega), powerOn_mem, l3F, hlen,
      if_pos (by omega), hrom 0x3F (by omega)]
    rfl
  · rw [ReadMemory_local _ _ (by unfold delegated; omega), powerOn_mem, l40, hlen,
      if_neg (by omega)]
    rfl
  · rw [ReadMemory_local _ _ (by unfold delegated; omega), powerOn_mem, l47]
    rfl
  · rw [hcpu]
    have b7 : bitOf 0xB0 7 = true := by decide
    have b6 : bitOf 0xB0 6 = false := by decide
    have b5 : bitOf 0xB0 5 = true := by decide
    have b4 : bitOf 0xB0 4 = true := by decide
    exact ⟨rfl, rfl, rfl, rfl, rfl, rfl, rfl, rfl, b7, b6, b5, b4⟩

/-- Witness for C10 (amended): the cartridge `romAA`. -/
theorem power_on_scenario_witness :
    romAA.ROMLength = 64 ∧ (∀ a, a < 64 → romAA.ReadRom a = 0xAA) ∧
    (ReadMemory (powerOn romAA) 0x0000 = 0xAA ∧
    ReadMemory (powerOn romAA) 0x3F = 0xAA ∧
    ReadMemory (powerOn romAA) 0x40 = 0x00 ∧
    ReadMemory (powerOn romAA) 0xFF47 = 0xFC ∧
    (powerOn romAA).CPU.Registers.PC = 0x0100 ∧
    (powerOn romAA).CPU.Registers.SP = 0xFFFE ∧
    (powerOn romAA).CPU.Registers.A = 0x01 ∧
    (powerOn romAA).CPU.Registers.F = 0xB0 ∧
    (powerOn romAA).CPU.Flags.Zero = true ∧
    (powerOn romAA).CPU.Flags.Sub = false ∧
    (powerOn romAA).CPU.Flags.HalfCarry = true ∧
    (powerOn romAA).CPU.Flags.Carry = true ∧
    bitOf (powerOn romAA).CPU.Registers.F 7 = (powerOn romAA).CPU.Flags.Zero ∧
    bitOf (powerOn romAA).CPU.Registers.F 6 = (powerOn romAA).CPU.Flags.Sub ∧
    bitOf (powerOn romAA).CPU.Registers.F 5 = (powerOn romAA).CPU.Flags.HalfCarry ∧
    bitOf (powerOn romAA).CPU.Registers.F 4 = (powerOn romAA).CPU.Flags.Carry) :=
  ⟨rfl, fun a ha => by simp [romAA, ha],
    power_on_scenario romAA rfl (fun a ha => by simp [romAA, ha])⟩

/-- C10 (as stated) fails: with the 64-byte ROM of 0xAA bytes the loop loads
indices 0..0x3F only, so after power-on `ReadMemory(0x40)` is 0x00, not 0xAA. -/
theorem power_on_0x40_counterexample :
    romAA.ROMLength = 64 ∧ ReadMemory (powerOn romAA) 0x40 = 0x00 ∧
    ReadMemory (powerOn romAA) 0x40 ≠ 0xAA := by
  have l40 : ioInit.reverse.lookup 0x40 = none := by decide
  have h : ReadMemory (powerOn romAA) 0x40 = 0x00 := by
    rw [ReadMemory_local _ _ (by unfold delegated; omega), powerOn_mem, l40]
    rfl
  refine ⟨rfl, h, ?_⟩
  rw [h]
  decide

/-! ## Contents of the array after `initMemory` -/

theorem lookup_none_of_not_key (l : List (Nat × Nat)) (x : Nat) (h : ∀ p ∈ l, p.1 ≠ x) :
    l.lookup x = none := by
  induction l with
  | nil => rfl
  | cons p l ih =>
    obtain ⟨k, v⟩ := p
    have hk : k ≠ x := h (k, v) (List.mem_cons_self _ _)
    have hb : (x == k) = false := by simpa using fun e => hk e.symm
    rw [List.lookup, hb]
    exact ih (fun q hq => h q (List.mem_cons_of_mem _ hq))

theorem ioInit_keys_high : ∀ p ∈ ioInit, 0xFF05 ≤ p.1 := by decide

theorem ioInit_last_wins : ∀ p ∈ ioInit, ioInit.reverse.lookup p.1 = some p.2 := by decide

/-- C11: after `initMemory` on a zeroed array, for every cartridge: the bytes
below `min(ROMLength, 0x8000)` are the ROM bytes `ReadRom(i)`; each of the 32
listed I/O addresses holds its listed value (0xFF0F = 0xE1, 0xFF40 = 0x91,
0xFF47 = 0xFC among them); every other byte, in particular every byte from
`min(ROMLength, 0x8000)` up to 0x7FFF, is still zero. -/
theorem initMemory_contents (core : Core) (hz : ∀ x, core.Memory.MainMemory x = 0) :
    (∀ i : Nat, (i : Int) < min core.Cartridge.ROMLength 0x8000 →
      (initMemory core).Memory.MainMemory i = core.Cartridge.ReadRom i) ∧
    ioInit.length = 32 ∧
    (∀ p ∈ ioInit, (initMemory core).Memory.MainMemory p.1 = p.2) ∧
    (initMemory core).Memory.MainMemory 0xFF0F = 0xE1 ∧
    (initMemory core).Memory.MainMemory 0xFF40 = 0x91 ∧
    (initMemory core).Memory.MainMemory 0xFF47 = 0xFC ∧
    (∀ x : Nat, ¬ ((x : Int) < min core.Cartridge.ROMLength 0x8000) →
      (∀ p ∈ ioInit, p.1 ≠ x) → (initMemory core).Memory.MainMemory x = 0) := by
  have hio : ∀ p ∈ ioInit, (initMemory core).Memory.MainMemory p.1 = p.2 := by
    intro p hp
    rw [initMemory_mem, ioInit_last_wins p hp]
    rfl
  refine ⟨?_, rfl, hio, hio (0xFF0F, 0xE1) (by decide), hio (0xFF40, 0x91) (by decide),
    hio (0xFF47, 0xFC) (by decide), ?_⟩
  · intro i hi
    have hi2 : (i : Int) < core.Cartridge.ROMLength ∧ i < 0x8000 := by
      rw [lt_min_iff] at hi
      omega
    have hnone : ioInit.reverse.lookup i = none := by
      apply lookup_none_of_not_key
      intro p hp
      have := ioInit_keys_high p (List.mem_reverse.mp hp)
      omega
    rw [initMemory_mem, hnone, if_pos hi2]
    rfl
  · intro x hx hkey
    have hx2 : ¬ ((x : Int) < core.Cartridge.ROMLength ∧ x < 0x8000) := by
      rw [lt_min_iff] at hx
      omega
    have hnone : ioInit.reverse.lookup x = none := by
      apply lookup_none_of_not_key
      intro p hp
      exact hkey p (List.mem_reverse.mp hp)
    rw [initMemory_mem, hnone, if_neg hx2, hz]
    rfl

/-- Witness for C11: the fresh core around the 64-byte ROM. -/
theorem initMemory_contents_witness :
    (∀ x, (freshCore romAA).Memory.MainMemory x = 0) ∧
    (∀ i : Nat, (i : Int) < min (freshCore romAA).Cartridge.ROMLength 0x8000 →
      (initMemory (freshCore romAA)).Memory.MainMemory i
        = (freshCore romAA).Cartridge.ReadRom i) ∧
    (initMemory (freshCore romAA)).Memory.MainMemory 0xFF47 = 0xFC ∧
    (∀ x : Nat, ¬ ((x : Int) < min (freshCore romAA).Cartridge.ROMLength 0x8000) →
      (∀ p ∈ ioInit, p.1 ≠ x) → (initMemory (freshCore romAA)).Memory.MainMemory x = 0) :=
  ⟨fun _ => rfl,
    (initMemory_contents (freshCore romAA) (fun _ => rfl)).1,
    (initMemory_contents (freshCore romAA) (fun _ => rfl)).2.2.2.2.2.1,
    (initMemory_contents (freshCore romAA) (fun _ => rfl)).2.2.2.2.2.2⟩

/-! ## Writes that reach the array where they should not -/

/-- C12 (defect): a write of 0x5A to 0xA000, inside the external-RAM window, takes
the final `else` branch: the array byte at 0xA000 changes from 0 to 0x5A, while
`ReadMemory(0xA000)` keeps returning the cartridge's `ReadRomBank(0xA000)`. -/
theorem external_ram_write_hits_array :
    (freshCore romAA).Memory.MainMemory 0xA000 = 0 ∧
    (WriteMemory sampleEnv (freshCore romAA) 0xA000 0x5A).Memory.MainMemory 0xA000 = 0x5A ∧
    ReadMemory (WriteMemory sampleEnv (freshCore romAA) 0xA000 0x5A) 0xA000
      = romAA.ReadRomBank 0xA000 ∧
    romAA.ReadRomBank 0xA000 ≠ 0x5A := by
  rw [WriteMemory_plain sampleEnv (freshCore romAA) 0xA000 0x5A (by decide)]
  refine ⟨rfl, ?_, ?_, ?_⟩
  · simp
  · rw [ReadMemory_eq, if_pos (by decide)]
    rfl
  · decide

/-- C13 (defect): the discard test is `address < 0xFEFF`, so a write of 0x5A to
0xFEFF, the last address of the not-usable range, takes the final `else` branch
and the array byte at 0xFEFF changes from 0 to 0x5A. -/
theorem write_0xFEFF_hits_array :
    (freshCore romAA).Memory.MainMemory 0xFEFF = 0 ∧
    (WriteMemory sampleEnv (freshCore romAA) 0xFEFF 0x5A).Memory.MainMemory 0xFEFF = 0x5A ∧
    ReadMemory (WriteMemory sampleEnv (freshCore romAA) 0xFEFF 0x5A) 0xFEFF = 0x5A := by
  rw [WriteMemory_plain sampleEnv (freshCore romAA) 0xFEFF 0x5A (by decide)]
  refine ⟨rfl, ?_, ?_⟩
  · simp
  · rw [ReadMemory_local _ _ (by decide)]
    simp

/-- C18 (defect): from power-on, a write of 0x5A to work RAM at 0xC000 is a plain
store and is not copied up, so `ReadMemory(0xE000)` is still 0 while
`ReadMemory(0xC000)` is 0x5A. -/
theorem work_ram_write_not_echoed :
    ReadMemory (WriteMemory sampleEnv (powerOn romAA) 0xC000 0x5A) 0xC000 = 0x5A ∧
    ReadMemory (WriteMemory sampleEnv (powerOn romAA) 0xC000 0x5A) 0xE000 = 0 ∧
    ReadMemory (WriteMemory sampleEnv (powerOn romAA) 0xC000 0x5A) 0xE000
      ≠ ReadMemory (WriteMemory sampleEnv (powerOn romAA) 0xC000 0x5A) (0xE000 - 0x2000) := by
  have h1 : ReadMemory (WriteMemory sampleEnv (powerOn romAA) 0xC000 0x5A) 0xC000 = 0x5A := by
    rw [WriteMemory_plain sampleEnv (powerOn romAA) 0xC000 0x5A (by decide),
      ReadMemory_local _ _ (by decide)]
    simp
  have l : ioInit.reverse.lookup 0xE000 = none := by decide
  have h2 : ReadMemory (WriteMemory sampleEnv (powerOn romAA) 0xC000 0x5A) 0xE000 = 0 := by
    rw [WriteMemory_plain sampleEnv (powerOn romAA) 0xC000 0x5A (by decide),
      ReadMemory_local _ _ (by decide), store_MainMemory, if_neg (by decide), powerOn_mem, l]
    rfl
  refine ⟨h1, h2, ?_⟩
  have e : (0xE000 - 0x2000 : Nat) = 0xC000 := by decide
  rw [e, h1, h2]
  decide

/-! ## Register `F` against the flags -/

/-- C14 (defect): `updateAFLow` starts from the current `F` and only touches bits
7..4. After `setAF(0x12FF)` on the power-on CPU, `F` is 0xFF; `updateAFLow` then
leaves 0xBF, and `Compare(1, 1)` leaves 0xCF: the low nibble stays 0xF. -/
theorem updateAFLow_keeps_low_nibble :
    ((initCPU (freshCore romAA)).CPU.setAF 0x12FF).Registers.F = 0xFF ∧
    (((initCPU (freshCore romAA)).CPU.setAF 0x12FF).updateAFLow).Registers.F = 0xBF ∧
    (((initCPU (freshCore romAA)).CPU.setAF 0x12FF).updateAFLow).Registers.F % 16 = 0xF ∧
    ((((initCPU (freshCore romAA)).CPU.setAF 0x12FF).Compare 1 1)).Registers.F = 0xCF ∧
    ((((initCPU (freshCore romAA)).CPU.setAF 0x12FF).Compare 1 1)).Registers.F % 16 = 0xF := by
  refine ⟨?_, ?_, ?_, ?_, ?_⟩ <;> decide

/-- C15 (defect): `setAF` writes `F` and leaves the four booleans alone. After
`setAF(0x0100)` on the power-on CPU, `F` is 0x00 while `Zero`, `HalfCarry` and
`Carry` are still true, so bits 7, 5, 4 of `F` differ from the flags. -/
theorem setAF_desyncs_flags :
    ((initCPU (freshCore romAA)).CPU.setAF 0x0100).Registers.F = 0x00 ∧
    ((initCPU (freshCore romAA)).CPU.setAF 0x0100).Flags.Zero = true ∧
    bitOf ((initCPU (freshCore romAA)).CPU.setAF 0x0100).Registers.F 7 = false ∧
    ((initCPU (freshCore romAA)).CPU.setAF 0x0100).Flags.HalfCarry = true ∧
    bitOf ((initCPU (freshCore romAA)).CPU.setAF 0x0100).Registers.F 5 = false ∧
    ((initCPU (freshCore romAA)).CPU.setAF 0x0100).Flags.Carry = true ∧
    bitOf ((initCPU (freshCore romAA)).CPU.setAF 0x0100).Registers.F 4 = false := by
  refine ⟨?_, ?_, ?_, ?_, ?_, ?_, ?_⟩ <;> decide

/-! ## The two pending flags -/

/-- The byte at `PC-1` cannot be both 0xF3 and 0xFB, so after the two checks at
least one pending flag is false. -/
theorem applyPending_exclusive (core : Core) :
    ((applyPendingEnable (applyPendingDisable core)).CPU.Flags.PendingInterruptDisabled &&
      (applyPendingEnable (applyPendingDisable core)).CPU.Flags.PendingInterruptEnabled)
      = false := by
  by_cases hb : ReadMemory core (dec16 core.CPU.Registers.PC) = 0xF3
  · have h1 : applyPendingDisable core = core := by
      unfold applyPendingDisable
      simp [hb]
    rw [h1]
    have hb2 : ReadMemory core (dec16 core.CPU.Registers.PC) ≠ 0xFB := by
      rw [hb]
      decide
    cases hpe : core.CPU.Flags.PendingInterruptEnabled with
    | false =>
      have h2 : applyPendingEnable core = core := by
        unfold applyPendingEnable
        simp [hpe]
      rw [h2, hpe, Bool.and_false]
    | true =>
      have h2 : applyPendingEnable core =
          { core with CPU := { core.CPU with Flags := { core.CPU.Flags with
              PendingInterruptEnabled := false, InterruptMaster := true } } } := by
        unfold applyPendingEnable
        simp [hpe, hb2]
      rw [h2, Bool.and_false]
  · have h1 : (applyPendingDisable core).CPU.Flags.PendingInterruptDisabled = false := by
      unfold applyPendingDisable
      cases hpd : core.CPU.Flags.PendingInterruptDisabled with
      | false => simp [hpd]
      | true => simp [hb]
    have h2 : (applyPendingEnable (applyPendingDisable core)).CPU.Flags.PendingInterruptDisabled
        = (applyPendingDisable core).CPU.Flags.PendingInterruptDisabled := by
      unfold applyPendingEnable
      split
      · split
        · rfl
        · rfl
      · rfl
    rw [h2, h1, Bool.false_and]

/-- C16: both pending flags are false after power-on, and for every prior state
and every handler an `ExecuteOPCode` of an assigned opcode returns with at most
one of `PendingInterruptDisabled` / `PendingInterruptEnabled` true. -/
theorem pending_flags_exclusive (env : Env) (core : Core) (code : Nat) (cart : Cartridge)
    (hclk : (env.OPCodeFunctionMap code).Clock ≠ 0) :
    (powerOn cart).CPU.Flags.PendingInterruptDisabled = false ∧
    (powerOn cart).CPU.Flags.PendingInterruptEnabled = false ∧
    returned (ExecuteOPCode env core code) = true ∧
    ((stateAfter (ExecuteOPCode env core code)).CPU.Flags.PendingInterruptDisabled &&
      (stateAfter (ExecuteOPCode env core code)).CPU.Flags.PendingInterruptEnabled) = false := by
  have hcpu : (powerOn cart).CPU = (initCPU (freshCore cart)).CPU :=
    (initMemory_frame (initCPU (freshCore cart))).1
  have hex : ExecuteOPCode env core code =
      Except.ok (applyPendingEnable (applyPendingDisable ((env.OPCodeFunctionMap code).Func core).1),
        (env.OPCodeFunctionMap code).Clock + ((env.OPCodeFunctionMap code).Func core).2) := by
    unfold ExecuteOPCode
    rw [if_pos hclk]
  refine ⟨by rw [hcpu]; rfl, by rw [hcpu]; rfl, by rw [hex]; rfl, ?_⟩
  rw [hex]
  exact applyPending_exclusive _

/-- Witness for C16: dispatching 0xF3 on the `DI ; LD A,0xF3` state. -/
theorem pending_flags_exclusive_witness :
    (sampleEnv.OPCodeFunctionMap 0xF3).Clock ≠ 0 ∧
    (powerOn romAA).CPU.Flags.PendingInterruptDisabled = false ∧
    (powerOn romAA).CPU.Flags.PendingInterruptEnabled = false ∧
    returned (ExecuteOPCode sampleEnv diThenLoad 0xF3) = true ∧
    ((stateAfter (ExecuteOPCode sampleEnv diThenLoad 0xF3)).CPU.Flags.PendingInterruptDisabled &&
      (stateAfter (ExecuteOPCode sampleEnv diThenLoad 0xF3)).CPU.Flags.PendingInterruptEnabled)
      = false :=
  ⟨by decide, pending_flags_exclusive sampleEnv diThenLoad 0xF3 romAA (by decide)⟩

/-! ## Stack layout -/

/-- With both slots at plain-store addresses, `StackPush` is two register updates
and two array assignments. -/
theorem StackPush_plain (env : Env) (core : Core) (v : Nat)
    (h1 : plainStore (dec16 core.CPU.Registers.SP))
    (h2 : plainStore (dec16 (dec16 core.CPU.Registers.SP))) :
    StackPush env core v =
      store (setSP (store (setSP core (dec16 core.CPU.Registers.SP))
        (dec16 core.CPU.Registers.SP) ((v >>> 8) % 256))
        (dec16 (dec16 core.CPU.Registers.SP)))
        (dec16 (dec16 core.CPU.Registers.SP)) ((v &&& 0xFF) % 256) := by
  unfold StackPush
  simp only [setSP_SP]
  rw [WriteMemory_plain env _ _ _ h1]
  have e : (store (setSP core (dec16 core.CPU.Registers.SP)) (dec16 core.CPU.Registers.SP)
      ((v >>> 8) % 256)).CPU.Registers.SP = dec16 core.CPU.Registers.SP := rfl
  rw [e, WriteMemory_plain env _ _ _ h2]

theorem stackSlot_plainStore (a : Nat) (h : stackSlot a) : plainStore a := by
  unfold stackSlot at h
  unfold plainStore
  omega

theorem high_low_bytes (v : Nat) (hv : v < 65536) :
    (v >>> 8) % 256 = v / 256 ∧ (v &&& 0xFF) % 256 = v % 256 := by
  have h1 : v &&& 0xFF = v % 256 := Nat.and_pow_two_sub_one_eq_mod v 8
  rw [h1, Nat.shiftRight_eq_div_pow]
  omega

/-- C20: with a 16-bit `SP` and a 16-bit `v`. When `SP-1` and `SP-2` (mod 2^16)
both lie in 0xC000-0xDFFF or 0xFF80-0xFFFF, `StackPush(v)` leaves `SP` two lower,
the high byte of `v` at `SP-1` and the low byte at `SP-2`, and the following
`StackPop()` returns `v` and restores `SP`. For every state, with a timer hook
that leaves the CPU alone, `StackPush` then `StackPop` restores `SP`. -/
theorem StackPush_layout (env : Env) (core : Core) (v : Nat)
    (hv : v < 65536) (hsp : core.CPU.Registers.SP < 65536) :
    (stackSlot (dec16 core.CPU.Registers.SP) →
      stackSlot (dec16 (dec16 core.CPU.Registers.SP)) →
      (StackPush env core v).CPU.Registers.SP = (core.CPU.Registers.SP + 65534) % 65536 ∧
      (StackPush env core v).Memory.MainMemory (dec16 core.CPU.Registers.SP) = v / 256 ∧
      (StackPush env core v).Memory.MainMemory (dec16 (dec16 core.CPU.Registers.SP))
        = v % 256 ∧
      (StackPop (StackPush env core v)).1 = v ∧
      (StackPop (StackPush env core v)).2.CPU.Registers.SP = core.CPU.Registers.SP) ∧
    (env.timerFrame →
      (StackPop (StackPush env core v)).2.CPU.Registers.SP = core.CPU.Registers.SP) := by
  constructor
  · intro s1 s2
    have p1 := stackSlot_plainStore _ s1
    have p2 := stackSlot_plainStore _ s2
    obtain ⟨hhi, hlo⟩ := high_low_bytes v hv
    have hne : dec16 core.CPU.Registers.SP ≠ dec16 (dec16 core.CPU.Registers.SP) := by
      unfold dec16; omega
    have hnext : (dec16 (dec16 core.CPU.Registers.SP) + 1) % 65536
        = dec16 core.CPU.Registers.SP := by
      unfold dec16; omega
    have hd1 : ¬ delegated (dec16 core.CPU.Registers.SP) := by
      unfold stackSlot at s1; unfold delegated; omega
    have hd2 : ¬ delegated (dec16 (dec16 core.CPU.Registers.SP)) := by
      unfold stackSlot at s2; unfold delegated; omega
    have hSP : (StackPush env core v).CPU.Registers.SP = dec16 (dec16 core.CPU.Registers.SP) := by
      rw [StackPush_plain env core v p1 p2]
      rfl
    have hm1 : (StackPush env core v).Memory.MainMemory (dec16 core.CPU.Registers.SP)
        = v / 256 := by
      rw [StackPush_plain env core v p1 p2, store_MainMemory, if_neg hne, setSP_Memory,
        store_MainMemory, if_pos rfl, hhi]
    have hm2 : (StackPush env core v).Memory.MainMemory (dec16 (dec16 core.CPU.Registers.SP))
        = v % 256 := by
      rw [StackPush_plain env core v p1 p2, store_MainMemory, if_pos rfl, hlo]
    refine ⟨?_, hm1, hm2, ?_, ?_⟩
    · rw [hSP]; unfold dec16; omega
    · unfold StackPop
      simp only [hSP, hnext]
      rw [ReadMemory_local _ _ hd1, ReadMemory_local _ _ hd2, hm1, hm2, Nat.shiftLeft_eq]
      omega
    · unfold StackPop
      simp only [setSP_SP, hSP]
      unfold dec16
      omega
  · intro henv
    obtain ⟨hsp2, _, _⟩ := StackPush_spec env henv core v
    unfold StackPop
    simp only [setSP_SP, hsp2]
    unfold dec16
    omega

/-- Witness for C20: pushing 0x1234 with `SP = 0xD000` on a zeroed core. -/
theorem StackPush_layout_witness :
    0x1234 < 65536 ∧ (setSP (freshCore romAA) 0xD000).CPU.Registers.SP < 65536 ∧
    ((StackPush sampleEnv (setSP (freshCore romAA) 0xD000) 0x1234).CPU.Registers.SP
        = ((setSP (freshCore romAA) 0xD000).CPU.Registers.SP + 65534) % 65536 ∧
      (StackPush sampleEnv (setSP (freshCore romAA) 0xD000) 0x1234).Memory.MainMemory
        (dec16 (setSP (freshCore romAA) 0xD000).CPU.Registers.SP) = 0x1234 / 256 ∧
      (StackPush sampleEnv (setSP (freshCore romAA) 0xD000) 0x1234).Memory.MainMemory
        (dec16 (dec16 (setSP (freshCore romAA) 0xD000).CPU.Registers.SP)) = 0x1234 % 256 ∧
      (StackPop (StackPush sampleEnv (setSP (freshCore romAA) 0xD000) 0x1234)).1 = 0x1234 ∧
      (StackPop (StackPush sampleEnv (setSP (freshCore romAA) 0xD000) 0x1234)).2.CPU.Registers.SP
        = (setSP (freshCore romAA) 0xD000).CPU.Registers.SP) :=
  ⟨by decide, by decide,
    (StackPush_layout sampleEnv (setSP (freshCore romAA) 0xD000) 0x1234
      (by decide) (by decide)).1 (by decide) (by decide)⟩

/-! ## The recorded write path -/

theorem WriteMemoryCalls_rom (env : Env) (k : Nat) (core : Core) (a d : Nat) (h : a < 0x8000) :
    WriteMemoryCalls env k core a d = [Event.enter k a d, Event.println "todo banking"] := by
  rw [WriteMemoryCalls, if_pos h]

theorem WriteMemoryCalls_plain (env : Env) (k : Nat) (core : Core) (a d : Nat)
    (h : plainStore a) : WriteMemoryCalls env k core a d = [Event.enter k a d] := by
  obtain ⟨h1, h2, h3, h4, h5, h6, h7⟩ := h
  rw [WriteMemoryCalls, if_neg (by omega), dif_neg h2, if_neg h3, if_neg (fun e => h4 e.symm),
    if_neg h5, if_neg h6, if_neg h7]

theorem WriteMemoryCalls_echo (env : Env) (k : Nat) (core : Core) (a d : Nat)
    (h : 0xE000 ≤ a ∧ a < 0xFE00) :
    WriteMemoryCalls env k core a d =
      [Event.enter k a d, Event.enter (k + 1) (a - 0x2000) d] := by
  rw [WriteMemoryCalls, if_neg (by omega), dif_pos h,
    WriteMemoryCalls_plain env (k + 1) (store core a d) (a - 0x2000) d
      (by unfold plainStore; omega)]

theorem WriteMemoryCalls_restricted (env : Env) (k : Nat) (core : Core) (a d : Nat)
    (h : 0xFEA0 ≤ a ∧ a < 0xFEFF) : WriteMemoryCalls env k core a d = [Event.enter k a d] := by
  rw [WriteMemoryCalls, if_neg (by omega), dif_neg (by omega), if_pos h]

theorem WriteMemoryCalls_div (env : Env) (k : Nat) (core : Core) (d : Nat) :
    WriteMemoryCalls env k core 0xFF04 d = [Event.enter k 0xFF04 d] := by
  rw [WriteMemoryCalls]; simp

theorem WriteMemoryCalls_ly (env : Env) (k : Nat) (core : Core) (d : Nat) :
    WriteMemoryCalls env k core 0xFF44 d = [Event.enter k 0xFF44 d] := by
  rw [WriteMemoryCalls]; simp

theorem WriteMemoryCalls_dma (env : Env) (k : Nat) (core : Core) (d : Nat) :
    WriteMemoryCalls env k core 0xFF46 d =
      Event.enter k 0xFF46 d :: DoDMACalls env (k + 1) core d := by
  rw [WriteMemoryCalls]; simp

theorem writeEntries_append (s t : List Event) :
    writeEntries (s ++ t) = writeEntries s ++ writeEntries t := by
  induction s with
  | nil => rfl
  | cons e s ih =>
    cases e <;> simp [writeEntries, ih]

theorem writeEntries_ReadMemoryCalls (a : Nat) : writeEntries (ReadMemoryCalls a) = [] := by
  unfold ReadMemoryCalls
  split
  · rfl
  · split
    · rfl
    · rfl

theorem writeEntries_tac (env : Env) (k : Nat) (core : Core) (d : Nat) :
    writeEntries (WriteMemoryCalls env k core 0xFF07 d) = [(k, 0xFF07)] := by
  rw [WriteMemoryCalls]
  simp only [show ¬ (0xFF07 < 0x8000) by decide, if_false,
    show ¬ (0xE000 ≤ 0xFF07 ∧ 0xFF07 < 0xFE00) by decide, dite_false,
    show ¬ (0xFEA0 ≤ 0xFF07 ∧ 0xFF07 < 0xFEFF) by decide,
    show ¬ (0xFF04 = 0xFF07) by decide, show ¬ (0xFF07 = 0xFF44) by decide,
    show ¬ (0xFF07 = 0xFF46) by decide, if_true]
  split
  · rfl
  · rfl

/-- The loop from index `i` enters `WriteMemory` once per remaining index, each
time at depth `k` and at address `0xFE00 + j`. -/
theorem DoDMALoopCalls_entries (env : Env) (k address : Nat) :
    ∀ (n i : Nat) (core : Core), 0xA0 - i = n →
      writeEntries (DoDMALoopCalls env k core address i)
        = (List.range' i n).map (fun j => (k, 0xFE00 + j)) := by
  intro n
  induction n with
  | zero =>
    intro i core hn
    rw [DoDMALoopCalls, dif_neg (by omega)]
    rfl
  | succ n ih =>
    intro i core hn
    have hi : i < 0xA0 := by omega
    have hdst : (0xFE00 + i) % 65536 = 0xFE00 + i := by omega
    rw [DoDMALoopCalls, dif_pos hi, hdst, writeEntries_append, writeEntries_append,
      writeEntries_ReadMemoryCalls,
      WriteMemoryCalls_plain env k core _ _ (by unfold plainStore; omega),
      ih (i + 1) _ (by omega)]
    rfl

/-- The entries into `WriteMemory` made by one call at depth `k`: the call
itself, plus one nested entry for an echo address, plus 0xA0 nested entries for
0xFF46. -/
theorem writeEntries_WriteMemoryCalls (env : Env) (k : Nat) (core : Core) (a d : Nat) :
    writeEntries (WriteMemoryCalls env k core a d) =
      if 0xE000 ≤ a ∧ a < 0xFE00 then [(k, a), (k + 1, a - 0x2000)]
      else if a = 0xFF46 then (k, a) :: (List.range 0xA0).map (fun j => (k + 1, 0xFE00 + j))
      else [(k, a)] := by
  by_cases h1 : a < 0x8000
  · rw [WriteMemoryCalls_rom env k core a d h1, if_neg (by omega), if_neg (by omega)]
    rfl
  by_cases h2 : 0xE000 ≤ a ∧ a < 0xFE00
  · rw [WriteMemoryCalls_echo env k core a d h2, if_pos h2]
    rfl
  by_cases h3 : 0xFEA0 ≤ a ∧ a < 0xFEFF
  · rw [WriteMemoryCalls_restricted env k core a d h3, if_neg h2, if_neg (by omega)]
    rfl
  by_cases h4 : a = 0xFF04
  · subst h4
    rw [WriteMemoryCalls_div, if_neg h2, if_neg (by omega)]
    rfl
  by_cases h5 : a = 0xFF44
  · subst h5
    rw [WriteMemoryCalls_ly, if_neg h2, if_neg (by omega)]
    rfl
  by_cases h6 : a = 0xFF46
  · subst h6
    rw [WriteMemoryCalls_dma, if_neg h2, if_pos rfl, DoDMACalls, List.range_eq_range']
    show (k, 0xFF46) :: writeEntries _ = _
    rw [DoDMALoopCalls_entries env (k + 1) _ 0xA0 0 core rfl]
  by_cases h7 : a = 0xFF07
  · subst h7
    rw [writeEntries_tac, if_neg h2, if_neg (by omega)]
  · rw [WriteMemoryCalls_plain env k core a d ⟨by omega, h2, h3, h4, h5, h6, h7⟩, if_neg h2,
      if_neg h6]
    rfl

/-! ## Writes below 0x8000 -/

/-- C17 (amended): for `a < 0x8000`, `WriteMemory(a, v)` returns the state it was
given, the local array included, and besides its own entry makes a single
call: the log line "todo banking". No banking write reaches the cartridge. -/
theorem rom_write_only_logs (env : Env) (core : Core) (a v : Nat) (h : a < 0x8000) :
    WriteMemory env core a v = core ∧
    WriteMemoryCalls env 0 core a v = [Event.enter 0 a v, Event.println "todo banking"] ∧
    Event.banking a v ∉ WriteMemoryCalls env 0 core a v := by
  refine ⟨WriteMemory_rom env core a v h, WriteMemoryCalls_rom env 0 core a v h, ?_⟩
  rw [WriteMemoryCalls_rom env 0 core a v h]
  simp

/-- Witness for C17 (amended): a write of 0x01 to 0x2000. -/
theorem rom_write_only_logs_witness :
    0x2000 < 0x8000 ∧
    (WriteMemory sampleEnv (freshCore romAA) 0x2000 0x01 = freshCore romAA ∧
    WriteMemoryCalls sampleEnv 0 (freshCore romAA) 0x2000 0x01
      = [Event.enter 0 0x2000 0x01, Event.println "todo banking"] ∧
    Event.banking 0x2000 0x01 ∉ WriteMemoryCalls sampleEnv 0 (freshCore romAA) 0x2000 0x01) :=
  ⟨by decide, rom_write_only_logs sampleEnv (freshCore romAA) 0x2000 0x01 (by decide)⟩

/-- C17 (as stated) fails: during a write of 0x01 to 0x2000 the banking write
`HandleBanking(0x2000, 0x01)` is not among the calls made; every recorded event
is the entry itself or the log line "todo banking". -/
theorem rom_write_banking_counterexample :
    Event.banking 0x2000 0x01 ∉ WriteMemoryCalls sampleEnv 0 (freshCore romAA) 0x2000 0x01 ∧
    (∀ e ∈ WriteMemoryCalls sampleEnv 0 (freshCore romAA) 0x2000 0x01,
      e = Event.enter 0 0x2000 0x01 ∨ e = Event.println "todo banking") := by
  rw [WriteMemoryCalls_rom sampleEnv 0 (freshCore romAA) 0x2000 0x01 (by norm_num)]
  constructor
  · simp
  · intro e he
    simpa using he

/-! ## Nesting of writes -/

/-- C19: `WriteMemory` and the record of its calls are total functions (defined
by well-founded recursion on the address class and the loop index). For every
address and value, a call entered at depth 0 makes nested entries at depth 1
only and at most 161 entries in all. An echo-RAM write makes exactly one
nested entry, at `a - 0x2000` in 0xC000-0xDDFF, which is a plain store. A write
to 0xFF46 makes exactly 160 nested entries, at 0xFE00 .. 0xFE9F in order, each a
plain store (neither the echo branch nor 0xFF46). -/
theorem WriteMemory_nesting (env : Env) (core : Core) (a d : Nat) :
    (∀ e ∈ writeEntries (WriteMemoryCalls env 0 core a d), e.1 ≤ 1) ∧
    (writeEntries (WriteMemoryCalls env 0 core a d)).length ≤ 161 ∧
    (0xE000 ≤ a ∧ a ≤ 0xFDFF →
      writeEntries (WriteMemoryCalls env 0 core a d) = [(0, a), (1, a - 0x2000)] ∧
      0xC000 ≤ a - 0x2000 ∧ a - 0x2000 ≤ 0xDDFF ∧ plainStore (a - 0x2000) ∧
      WriteMemory env core a d = store (store core a d) (a - 0x2000) d) ∧
    writeEntries (WriteMemoryCalls env 0 core 0xFF46 d)
      = (0, 0xFF46) :: (List.range 0xA0).map (fun j => (1, 0xFE00 + j)) ∧
    ((List.range 0xA0).map (fun j => ((1 : Nat), 0xFE00 + j))).length = 160 ∧
    (∀ j, j < 0xA0 → plainStore (0xFE00 + j) ∧ 0xFE00 + j ≤ 0xFE9F) := by
  refine ⟨?_, ?_, ?_, ?_, ?_, ?_⟩
  · intro e he
    rw [writeEntries_WriteMemoryCalls] at he
    split at he
    · simp at he
      rcases he with rfl | rfl <;> simp
    · split at he
      · simp at he
        rcases he with rfl | ⟨j, _, rfl⟩ <;> simp
      · simp at he
        subst he
        simp
  · rw [writeEntries_WriteMemoryCalls]
    split
    · simp
    · split
      · simp
      · simp
  · intro h
    have h2 : 0xE000 ≤ a ∧ a < 0xFE00 := by omega
    refine ⟨?_, by omega, by omega, by unfold plainStore; omega,
      WriteMemory_echo env core a d h2⟩
    rw [writeEntries_WriteMemoryCalls, if_pos h2]
  · rw [writeEntries_WriteMemoryCalls, if_neg (by decide), if_pos rfl]
  · simp
  · intro j hj
    unfold plainStore
    omega

end gb
